import Mathlib

/-!
Verification development for the tuya-xiaomou board drivers and examples

Shallow embedding of the pixel-format kernels and display-driver glue:

* `yuv422_to_binary`, `yuv422_to_binary_adaptive` (examples/peripherals/camera/output_display/src/example_camera.c)
* `__matrix_coord_to_led_index` (examples/peripherals/leds-pixel/src/example_led-pixels.c)
* `__disp_8080_convert_fb` (boards/T5AI/ATK_T5AI_MINI_BOARD/atk_t5ai_disp_8080_md0280.c)
* `__tdd_disp_st7735s_set_window`, `tdd_disp_spi_st7735s_xlt_register`
  (src/peripherals/display/tdd_display/src/spi/tdd_disp_spi_st7735s_xlt.c)

Conventions.  A `uint8_t` is a `Fin 256`, a `uint16_t` a `Fin 65536`; a store into
one of them reduces the computed value modulo `2^8` / `2^16`.  `uint32_t` arithmetic
is `Nat` arithmetic reduced modulo `2^32`.  A C `int` is an `Int`; every `int`
addition and multiplication of the camera kernel is reduced by `wrap32`, the 32-bit
two's complement wrap-around of the target (C itself leaves signed overflow undefined).
The camera kernel runs on one byte memory addressed by integers, so that its two
pointers may denote overlapping regions; a possibly-null pointer is an `Option`.  The
frame buffers of the display code are total functions from offsets to cells.  A
`for (i = 0; i < n; i++)` loop is `forLoop n body`.
-/

namespace TuyaXiaomou

/-! ## Machine words, buffers, loops -/

/-- A `uint8_t` value. -/
abbrev U8 := Fin 256

/-- A `uint16_t` value. -/
abbrev U16 := Fin 65536

/-- Store of an integer value into a `uint8_t` (truncation to 8 bits). -/
def toU8 (n : Nat) : U8 := ⟨n % 256, Nat.mod_lt _ (by decide)⟩

/-- Store of an integer value into a `uint16_t` (truncation to 16 bits). -/
def toU16 (n : Nat) : U16 := ⟨n % 65536, Nat.mod_lt _ (by decide)⟩

/-- Memory behind a non-null `uint8_t *`. -/
abbrev ByteBuf := Nat → U8

/-- Memory behind a non-null `uint16_t *`. -/
abbrev WordBuf := Nat → U16

/-- The assignment `buf[idx] = v`. -/
def bufSet {α : Type} (buf : Nat → α) (idx : Nat) (v : α) : Nat → α :=
  fun i => if i = idx then v else buf i

/-- The loop `for (i = 0; i < n; i++) s = body i s`. -/
def forLoop {σ : Type} : Nat → (Nat → σ → σ) → σ → σ
  | 0, _, s => s
  | n + 1, body, s => body n (forLoop n body s)

/-! ## example_camera.c : YUV422 to packed binary image -/

/-- Byte-addressed memory, shared by every pointer of a call: two pointers may denote
overlapping regions. -/
abbrev Mem := Int → U8

/-- The result of an `int` addition or multiplication: 32-bit two's complement
wrap-around. -/
def wrap32 (z : Int) : Int := (z + 2 ^ 31) % 2 ^ 32 - 2 ^ 31

/-- The assignment `*(uint8_t *)addr = v`. -/
def memWrite (mem : Mem) (addr : Int) (v : U8) : Mem :=
  fun a => if a = addr then v else mem a

/-- The call `memset (s, c, n)`. -/
def memset (mem : Mem) (s : Int) (c : U8) (n : Nat) : Mem :=
  fun a => if s ≤ a ∧ a < s + n then c else mem a

/-- Bit `b` of the byte at address `a`. -/
def bitAt (mem : Mem) (a : Int) (b : Nat) : Bool := (mem a).val.testBit b

/-- The `int` expression `y * width * 2 + (x / 2) * 4 + (x % 2) * 2` of both pixel loops.
`x` is never negative there, so `/` and `%` are the C operators. -/
def yuv_index (width y x : Int) : Int :=
  wrap32 (wrap32 (wrap32 (wrap32 (y * width) * 2) + wrap32 (x / 2 * 4)) + wrap32 (x % 2 * 2))

/-- The `int` expression `y * binary_stride + x / 8`. -/
def binary_index (binary_stride y x : Int) : Int :=
  wrap32 (wrap32 (y * binary_stride) + x / 8)

/-- The `int` expression `(width + 7) / 8`; C division truncates towards zero. -/
def binary_stride (width : Int) : Int := Int.tdiv (wrap32 (width + 7)) 8

/-- The length argument `binary_stride * height` of the `memset` call: an `int`, converted
to `size_t`, which has 32 bits on the target MCU. -/
def clear_length (binary_stride height : Int) : Nat :=
  (wrap32 (binary_stride * height) % 2 ^ 32).toNat

/-- Body of the inner loop of `yuv422_to_binary` for pixel `(x, y)`; `yuv422_data` and
`binary_data` are the addresses held by the two pointers. -/
def yuv422_to_binary_pixel (yuv422_data binary_data width binary_stride : Int)
    (threshold : U8) (y x : Int) (mem : Mem) : Mem :=
  let luminance : U8 := mem (yuv422_data + yuv_index width y x)
  if luminance ≥ threshold then
    let binary_index := binary_index binary_stride y x
    let bit_position := x % 8
    memWrite mem (binary_data + binary_index)
      (toU8 ((mem (binary_data + binary_index)).val ||| (1 <<< bit_position.toNat)))
  else
    mem

/-- The two nested loops of `yuv422_to_binary`: `rows` iterations of `y`, each with `cols`
iterations of `x`. -/
def yuv422_to_binary_loops (yuv422_data binary_data width binary_stride : Int)
    (threshold : U8) (rows cols : Nat) (mem : Mem) : Mem :=
  forLoop rows (fun y acc =>
    forLoop cols (fun x acc =>
      yuv422_to_binary_pixel yuv422_data binary_data width binary_stride threshold y x acc)
      acc)
    mem

/-- The function `yuv422_to_binary` on memory `mem`; a pointer is `none` when NULL and an
address otherwise.  The result is the returned `int` and the memory after the call. -/
def yuv422_to_binary (mem : Mem) (yuv422_data : Option Int) (width height : Int)
    (binary_data : Option Int) (threshold : U8) : Int × Mem :=
  match yuv422_data, binary_data with
  | some yuv, some bin =>
    if width ≤ 0 ∨ height ≤ 0 then
      (-1, mem)
    else
      let stride := binary_stride width
      let cleared := memset mem bin 0 (clear_length stride height)
      (0, yuv422_to_binary_loops yuv bin width stride threshold height.toNat width.toNat
        cleared)
  | _, _ => (-1, mem)

/-- The accumulation loops of `yuv422_to_binary_adaptive`: `uint32_t luminance_sum`
starts at 0 and every pixel adds its luminance byte, modulo `2^32`. -/
def luminance_sum_loops (mem : Mem) (yuv422_data width : Int) (rows cols : Nat) : Nat :=
  forLoop rows (fun y acc =>
    forLoop cols (fun x acc =>
      (acc + (mem (yuv422_data + yuv_index width y x)).val) % 2 ^ 32) acc)
    0

/-- The function `yuv422_to_binary_adaptive`.  In `luminance_sum / total_pixels` the `int`
divisor is converted to `uint32_t`; the quotient is truncated to `uint8_t`. -/
def yuv422_to_binary_adaptive (mem : Mem) (yuv422_data : Option Int) (width height : Int)
    (binary_data : Option Int) : Int × Mem :=
  match yuv422_data, binary_data with
  | some yuv, some bin =>
    if width ≤ 0 ∨ height ≤ 0 then
      (-1, mem)
    else
      let luminance_sum := luminance_sum_loops mem yuv width height.toNat width.toNat
      let total_pixels : Int := wrap32 (width * height)
      let avg_threshold : U8 := toU8 (luminance_sum / (total_pixels % 2 ^ 32).toNat)
      yuv422_to_binary mem (some yuv) width height (some bin) avg_threshold
  | _, _ => (-1, mem)

/-- The bytes behind a pointer, indexed from 0. -/
def bytesAt (mem : Mem) (ptr : Int) : ByteBuf := fun i => mem (ptr + i)

/-- Specification side of the adaptive threshold: the sum of the luminance bytes of the
first `n` pixels of a YUYV buffer (pixel `p` has its luminance at offset `2 * p`). -/
def luminance_total (yuv422_data : ByteBuf) (n : Nat) : Nat :=
  ((List.range n).map (fun p => (yuv422_data (2 * p)).val)).sum

/-- Specification side of the adaptive threshold: the integer average luminance of an
image of `n` pixels, `floor (sum / n)`. -/
def average_luminance (yuv422_data : ByteBuf) (n : Nat) : Nat :=
  luminance_total yuv422_data n / n

/-- A memory for concrete evaluations: the byte at address `a` is `37 * a mod 256`. -/
def sampleMem : Mem := fun a => toU8 (a.toNat * 37)

/-- A memory in which every byte is 200. -/
def mem200 : Mem := fun _ => 200

/-- The function `__matrix_coord_to_led_index`; `x`, `y` and the result are `uint32_t`,
so each operation is reduced modulo `2^32` (the subtractions add `2^32` first). -/
def __matrix_coord_to_led_index (x y : Nat) : Nat :=
  if x ≥ 16 ∨ y ≥ 16 then
    0
  else
    let led_index :=
      if x % 2 = 0 then
        (x * 16 % 2 ^ 32 + y) % 2 ^ 32
      else
        (((x + 1) % 2 ^ 32 * 16 % 2 ^ 32 + 2 ^ 32 - 1) % 2 ^ 32 + 2 ^ 32 - y) % 2 ^ 32
    led_index

/-! ## atk_t5ai_disp_8080_md0280.c : RGB565 repacking for the 8080 bus -/

/-- The fields of `TDL_DISP_FRAME_BUFF_T` that the board file touches (the declaration is in
`tdl_display_manage.h`).  `frame` is the pixel memory read through a `uint16_t *`. -/
structure TDL_DISP_FRAME_BUFF_T where
  fmt : Nat
  width : Nat
  height : Nat
  len : Nat
  frame : WordBuf

/-- The expression `((rgb565 & 0x0FFE) >> 1) | ((rgb565 & 0xE000) >> 2)` stored into a
`uint16_t`. -/
def convert_pixel (rgb565 : U16) : U16 :=
  toU16 (((rgb565.val &&& 0x0FFE) >>> 1) ||| ((rgb565.val &&& 0xE000) >>> 2))

/-- The function `__disp_8080_create_convert_fb`.  The allocator
`tdl_disp_create_frame_buff (DISP_FB_TP_PSRAM, fb_size)` and the constant
`TUYA_PIXEL_FMT_RGB565` come from headers outside the sources and are arguments. -/
def __disp_8080_create_convert_fb (tdl_disp_create_frame_buff : Nat → Option TDL_DISP_FRAME_BUFF_T)
    (TUYA_PIXEL_FMT_RGB565 : Nat) (width height : Nat) : Option TDL_DISP_FRAME_BUFF_T :=
  let fb_size := width * height * 2 % 2 ^ 32
  match tdl_disp_create_frame_buff fb_size with
  | none => none
  | some fb => some { fb with fmt := TUYA_PIXEL_FMT_RGB565, width := width, height := height }

/-- Lines 97-105 of `__disp_8080_convert_fb`: the conversion buffer `sg_conv_fb` is created
on first use and re-created when the frame size changed (releasing the old buffer has no
effect on the values modelled here). -/
def __disp_8080_convert_fb_acquire (tdl_disp_create_frame_buff : Nat → Option TDL_DISP_FRAME_BUFF_T)
    (TUYA_PIXEL_FMT_RGB565 : Nat) (sg_conv_fb : Option TDL_DISP_FRAME_BUFF_T)
    (frame_buff : TDL_DISP_FRAME_BUFF_T) : Option TDL_DISP_FRAME_BUFF_T :=
  match sg_conv_fb with
  | none =>
    __disp_8080_create_convert_fb tdl_disp_create_frame_buff TUYA_PIXEL_FMT_RGB565
      frame_buff.width frame_buff.height
  | some conv =>
    if conv.width ≠ frame_buff.width ∨ conv.height ≠ frame_buff.height then
      __disp_8080_create_convert_fb tdl_disp_create_frame_buff TUYA_PIXEL_FMT_RGB565
        frame_buff.width frame_buff.height
    else
      some conv

/-- The function `__disp_8080_convert_fb`.  The result is the frame buffer behind the
returned pointer (`none` for NULL) together with the new value of the static `sg_conv_fb`. -/
def __disp_8080_convert_fb (tdl_disp_create_frame_buff : Nat → Option TDL_DISP_FRAME_BUFF_T)
    (TUYA_PIXEL_FMT_RGB565 : Nat) (sg_conv_fb : Option TDL_DISP_FRAME_BUFF_T)
    (frame_buff : Option TDL_DISP_FRAME_BUFF_T) :
    Option TDL_DISP_FRAME_BUFF_T × Option TDL_DISP_FRAME_BUFF_T :=
  match frame_buff with
  | none => (none, sg_conv_fb)
  | some fbuf =>
    match __disp_8080_convert_fb_acquire tdl_disp_create_frame_buff TUYA_PIXEL_FMT_RGB565
        sg_conv_fb fbuf with
    | none => (none, none)
    | some conv =>
      let p_buf16 := fbuf.frame
      let converted : TDL_DISP_FRAME_BUFF_T :=
        { conv with
          frame := forLoop (fbuf.len / 2)
            (fun i p_dst_buf16 => bufSet p_dst_buf16 i (convert_pixel (p_buf16 i)))
            conv.frame }
      (some converted, some converted)

/-! ## tdd_disp_spi_st7735s_xlt.c : ST7735S XLT panel over SPI -/

/-- The macro `ST7735S_CASET` (column address set). -/
def ST7735S_CASET : U8 := 0x2A

/-- The macro `ST7735S_RASET` (row address set). -/
def ST7735S_RASET : U8 := 0x2B

/-- The macro `ST7735S_RAMWR` (memory write). -/
def ST7735S_RAMWR : U8 := 0x2C

/-- The table `cST7735S_INIT_SEQ`. -/
def cST7735S_INIT_SEQ : List U8 := [
    1,    120,  0x11,
    1,    0,  0x21,
    1,    0,  0x21,
    4,    100,  0xB1, 0x05,0x3A,0x3A,
    4,    0,    0xB2, 0x05,0x3A,0x3A,
    7,    0,    0xB3, 0x05,0x3A,0x3A, 0x05,0x3A,0x3A,
    2,    0,    0xB4, 0x03,
    4,    0,    0xC0, 0x62,0x02,0x04,
    2,    0,    0xC1, 0xC0,
    3,    0,    0xC2, 0x0D, 0x00,
    3,    0,    0xC3, 0x8A, 0x6A,
    3,    0,    0xC4, 0x8D, 0xEE,
    2,    0,    0xC5, 0x0E,
    17,   0,    0xE0, 0x10,0x0E,0x02,0x03,0x0E,0x07,0x02,0x07,0x0A,0x12,0x27,0x37,0x00,0x0D,0x0E,0x10,
    17,   0,    0xE1, 0x10,0x0E,0x03,0x03,0x0F,0x06,0x02,0x08,0x0A,0x13,0x26,0x36,0x00,0x0D,0x0E,0x10,
    2,    0,    0x3A, 0x05,
    2,    0,    0x36, 0xA8,
    1,    0,    0x29,
    0]

/-- The fields of `DISP_SPI_BASE_CFG_T` named in the driver (declared in
`tdd_display_spi.h`); enumerations and pin numbers are kept as numbers. -/
structure DISP_SPI_BASE_CFG_T where
  width : Nat
  height : Nat
  pixel_fmt : Nat
  port : Nat
  spi_clk : Nat
  cs_pin : Nat
  dc_pin : Nat
  rst_pin : Nat
  cmd_caset : U8
  cmd_raset : U8
  cmd_ramwr : U8

/-- One transfer on the SPI bus: `tdd_disp_spi_send_cmd (p_cfg, cmd)` or
`tdd_disp_spi_send_data (p_cfg, data, len)` with the `len` bytes sent. -/
inductive BusOp where
  | cmd (c : U8)
  | data (bytes : List U8)
  deriving DecidableEq, Repr

/-- The function `__tdd_disp_st7735s_set_window`, as the list of bus transfers it issues.
`lcd_data` is a `uint8_t[4]`, so each assigned value is truncated to 8 bits. -/
def __tdd_disp_st7735s_set_window (p_cfg : Option DISP_SPI_BASE_CFG_T)
    (x_start y_start x_end y_end : U16) : List BusOp :=
  match p_cfg with
  | none => []
  | some cfg =>
    let col : List U8 :=
      [toU8 ((x_start.val >>> 8) &&& 0xFF), toU8 ((x_start.val &&& 0xFF) + 1),
       toU8 ((x_end.val >>> 8) &&& 0xFF), toU8 ((x_end.val &&& 0xFF) + 1)]
    let row : List U8 :=
      [toU8 ((y_start.val >>> 8) &&& 0xFF), toU8 ((y_start.val &&& 0xFF) + 0x1A),
       toU8 ((y_end.val >>> 8) &&& 0xFF), toU8 ((y_end.val &&& 0xFF) + 0x1A)]
    [BusOp.cmd cfg.cmd_caset, BusOp.data (col.take 4),
     BusOp.cmd cfg.cmd_raset, BusOp.data (row.take 4)]

/-- A window-setting callback as stored in `set_window_cb`. -/
abbrev SetWindowCb := Option DISP_SPI_BASE_CFG_T → U16 → U16 → U16 → U16 → List BusOp

/-- The fields of `DISP_SPI_DEVICE_CFG_T` read by the register function.  `power` and `bl`
stand for the object representations of `TUYA_DISPLAY_IO_CTRL_T` and
`TUYA_DISPLAY_BL_CTRL_T`, which `memcpy` transfers whole. -/
structure DISP_SPI_DEVICE_CFG_T where
  width : Nat
  height : Nat
  pixel_fmt : Nat
  port : Nat
  spi_clk : Nat
  cs_pin : Nat
  dc_pin : Nat
  rst_pin : Nat
  rotation : Nat
  power : Nat
  bl : Nat

/-- The fields of `TDD_DISP_SPI_CFG_T` named in the driver; `set_window_cb` is `none` for
a NULL function pointer. -/
structure TDD_DISP_SPI_CFG_T where
  cfg : DISP_SPI_BASE_CFG_T
  rotation : Nat
  power : Nat
  bl : Nat
  init_seq : List U8
  is_swap : Bool
  set_window_cb : Option SetWindowCb

/-- The initial value of the static `sg_disp_spi_cfg`; members without an initialiser are
zero. -/
def sg_disp_spi_cfg : TDD_DISP_SPI_CFG_T :=
  { cfg :=
      { width := 0, height := 0, pixel_fmt := 0, port := 0, spi_clk := 0,
        cs_pin := 0, dc_pin := 0, rst_pin := 0,
        cmd_caset := ST7735S_CASET,
        cmd_raset := ST7735S_RASET,
        cmd_ramwr := ST7735S_RAMWR },
    rotation := 0, power := 0, bl := 0,
    init_seq := cST7735S_INIT_SEQ,
    is_swap := true,
    set_window_cb := none }

/-- Outcome of one call of `tdd_disp_spi_st7735s_xlt_register`. -/
structure RegisterResult where
  ret : Int
  static_cfg : TDD_DISP_SPI_CFG_T
  calls : List (String × TDD_DISP_SPI_CFG_T)

/-- The function `tdd_disp_spi_st7735s_xlt_register`, on the current value `sg` of the
static configuration.  `OPRT_INVALID_PARM` and `tdd_disp_spi_device_register` come from
headers outside the sources and are arguments; `calls` lists the calls made to the
latter with the configuration it is handed. -/
def tdd_disp_spi_st7735s_xlt_register (OPRT_INVALID_PARM : Int)
    (tdd_disp_spi_device_register : String → TDD_DISP_SPI_CFG_T → Int)
    (sg : TDD_DISP_SPI_CFG_T) (name : Option String) (dev_cfg : Option DISP_SPI_DEVICE_CFG_T) :
    RegisterResult :=
  match name, dev_cfg with
  | some name, some dev_cfg =>
    let sg1 : TDD_DISP_SPI_CFG_T :=
      { sg with
        cfg :=
          { sg.cfg with
            width := dev_cfg.width, height := dev_cfg.height, pixel_fmt := dev_cfg.pixel_fmt,
            port := dev_cfg.port, spi_clk := dev_cfg.spi_clk, cs_pin := dev_cfg.cs_pin,
            dc_pin := dev_cfg.dc_pin, rst_pin := dev_cfg.rst_pin },
        rotation := dev_cfg.rotation,
        set_window_cb := some __tdd_disp_st7735s_set_window }
    let sg2 : TDD_DISP_SPI_CFG_T := { sg1 with power := dev_cfg.power, bl := dev_cfg.bl }
    { ret := tdd_disp_spi_device_register name sg2, static_cfg := sg2, calls := [(name, sg2)] }
  | _, _ => { ret := OPRT_INVALID_PARM, static_cfg := sg, calls := [] }

/-- The static configuration after a history of register calls, starting from its
initial value. -/
def register_history (OPRT_INVALID_PARM : Int)
    (tdd_disp_spi_device_register : String → TDD_DISP_SPI_CFG_T → Int)
    (history : List (Option String × Option DISP_SPI_DEVICE_CFG_T)) : TDD_DISP_SPI_CFG_T :=
  history.foldl
    (fun sg call =>
      (tdd_disp_spi_st7735s_xlt_register OPRT_INVALID_PARM tdd_disp_spi_device_register
        sg call.1 call.2).static_cfg)
    sg_disp_spi_cfg

/-- Specification side of the window offsets: the big-endian 16-bit encoding of a number,
high byte first. -/
def be16 (n : Nat) : List U8 := [toU8 (n / 256), toU8 n]

/-- A base configuration with the ST7735S command codes, for concrete evaluations. -/
def sampleBaseCfg : DISP_SPI_BASE_CFG_T := sg_disp_spi_cfg.cfg

/-- A device configuration for concrete evaluations: a 160 x 80 panel. -/
def sampleDevCfg : DISP_SPI_DEVICE_CFG_T :=
  { width := 160, height := 80, pixel_fmt := 1, port := 0, spi_clk := 48000000,
    cs_pin := 45, dc_pin := 47, rst_pin := 43, rotation := 1, power := 7, bl := 9 }

/-- An allocator for concrete evaluations: it always succeeds with a zero-filled buffer. -/
def sampleCreate : Nat → Option TDL_DISP_FRAME_BUFF_T :=
  fun size => some { fmt := 0, width := 0, height := 0, len := size, frame := fun _ => 0 }

/-- A 2 x 2 RGB565 frame for concrete evaluations. -/
def sampleFrame : TDL_DISP_FRAME_BUFF_T :=
  { fmt := 1, width := 2, height := 2, len := 8, frame := fun i => toU16 (0xF81F + i * 4369) }

/-- The conversion buffer that `sampleCreate` yields for `sampleFrame`. -/
def sampleConv : TDL_DISP_FRAME_BUFF_T :=
  { fmt := 1, width := 2, height := 2, len := 8, frame := fun _ => 0 }

/-- The invariant part of the static configuration: members that no register call
assigns. -/
def static_cfg_fixed (sg : TDD_DISP_SPI_CFG_T) : Prop :=
  sg.cfg.cmd_caset = 0x2A ∧ sg.cfg.cmd_raset = 0x2B ∧ sg.cfg.cmd_ramwr = 0x2C ∧
    sg.init_seq = cST7735S_INIT_SEQ ∧ sg.is_swap = true

/-! ## example_led-pixels.c : effect rotation and scan animation -/

/-- The macro `LED_PIXELS_TOTAL_NUM`. -/
def LED_PIXELS_TOTAL_NUM : Nat := 256

/-- The macro `COLOR_RESOLUTION`. -/
def COLOR_RESOLUTION : Nat := 1000

/-- The members of `PIXEL_COLOR_T` that the example initialises (declared in the pixel
driver headers). -/
structure PIXEL_COLOR_T where
  warm : Nat
  cold : Nat
  red : Nat
  green : Nat
  blue : Nat
  deriving DecidableEq, Repr

/-- A call into the pixel driver on `sg_pixels_handle`:
`tdl_pixel_set_single_color (handle, index_start, pixel_num, &color)` or
`tdl_pixel_dev_refresh (handle)`. -/
inductive PixelCall where
  | set_single_color (index_start pixel_num : Nat) (color : PIXEL_COLOR_T)
  | dev_refresh
  deriving DecidableEq, Repr

/-- The effect functions called from the `switch` of `__example_pixels_task`. -/
inductive Effect where
  | __scrolling_text_effect
  | __breathing_color_effect
  | __ripple_effect
  | __2d_wave_effect
  | __snowflake_effect
  | __scan_animation_effect
  | __breathing_circle_effect
  | __running_light_effect
  | __color_wave_effect
  deriving DecidableEq, Repr

/-- The locals `effect_mode` and `effect_cycles` of `__example_pixels_task`. -/
structure TaskState where
  effect_mode : Nat
  effect_cycles : Nat
  deriving DecidableEq, Repr

/-- The `switch (effect_mode)` of `__example_pixels_task`: the effect run for a case label,
`none` for the `default` branch. -/
def effect_of_mode (effect_mode : Nat) : Option Effect :=
  match effect_mode with
  | 0 => some Effect.__scrolling_text_effect
  | 1 => some Effect.__breathing_color_effect
  | 2 => some Effect.__ripple_effect
  | 3 => some Effect.__2d_wave_effect
  | 4 => some Effect.__snowflake_effect
  | 5 => some Effect.__scan_animation_effect
  | 6 => some Effect.__breathing_circle_effect
  | 7 => some Effect.__running_light_effect
  | 8 => some Effect.__color_wave_effect
  | _ => none

/-- One pass through the body of `while (1)` in `__example_pixels_task`: the effect that was
run (`none` when the `default` branch resets the mode and continues) and the locals
afterwards.  Both locals are `uint32_t`. -/
def __example_pixels_task_iteration (s : TaskState) : Option Effect × TaskState :=
  let max_cycles_per_effect := 200
  match effect_of_mode s.effect_mode with
  | none => (none, { s with effect_mode := 0 })
  | some effect =>
    let effect_cycles := (s.effect_cycles + 1) % 2 ^ 32
    if effect_cycles ≥ max_cycles_per_effect then
      (some effect,
        { effect_cycles := 0, effect_mode := (s.effect_mode + 1) % 2 ^ 32 % 8 })
    else
      (some effect, { s with effect_cycles := effect_cycles })

/-- The locals of `__example_pixels_task` at the start of loop iteration `n` (0-based). -/
def task_state_at : Nat → TaskState
  | 0 => { effect_mode := 0, effect_cycles := 0 }
  | n + 1 => (__example_pixels_task_iteration (task_state_at n)).2

/-- The static locals of `__scan_animation_effect`. -/
structure ScanState where
  frame_count : Nat
  column_index : Nat
  row_index : Nat
  column_phase : Bool
  deriving DecidableEq, Repr

/-- The initial values of the static locals of `__scan_animation_effect`. -/
def scan_state_initial : ScanState :=
  { frame_count := 0, column_index := 0, row_index := 0, column_phase := true }

/-- One of the two 16-step lighting loops of `__scan_animation_effect`; `led_of k` is the
LED index computed in step `k`.  The accumulator holds the driver calls made so far and
whether a failed call has already jumped to `__ERROR`; `ok` tells whether a driver call
returns `OPRT_OK`. -/
def scan_light_loop (ok : PixelCall → Bool) (color : PIXEL_COLOR_T) (led_of : Nat → Nat)
    (acc : List PixelCall × Bool) : List PixelCall × Bool :=
  forLoop 16 (fun k acc =>
    if acc.2 then
      acc
    else
      let led_index := led_of k
      if led_index > 0 ∧ led_index ≤ LED_PIXELS_TOTAL_NUM then
        let call := PixelCall.set_single_color led_index 1 color
        (acc.1 ++ [call], !(ok call))
      else
        acc) acc

/-- The block "update animation every 10 frames" of `__scan_animation_effect`: the static
locals after `frame_count++` and the phase logic.  The counters are `uint32_t`. -/
def scan_advance (s : ScanState) : ScanState :=
  let frame_count := (s.frame_count + 1) % 2 ^ 32
  if frame_count ≥ 10 then
    if s.column_phase then
      let column_index := (s.column_index + 1) % 2 ^ 32
      if column_index ≥ 16 then
        { s with frame_count := 0, column_index := 0, column_phase := false }
      else
        { s with frame_count := 0, column_index := column_index }
    else
      let row_index := (s.row_index + 1) % 2 ^ 32
      if row_index ≥ 16 then
        { s with frame_count := 0, row_index := 0, column_phase := true }
      else
        { s with frame_count := 0, row_index := row_index }
  else
    { s with frame_count := frame_count }

/-- The lighting part of `__scan_animation_effect` for the updated static locals `s1`,
after the clearing call `clear`: the driver calls made so far and whether one failed. -/
def scan_light (ok : PixelCall → Bool) (clear : PixelCall) (s1 : ScanState) :
    List PixelCall × Bool :=
  if s1.column_phase then
    let red_color : PIXEL_COLOR_T :=
      { red := COLOR_RESOLUTION, green := 0, blue := 0, warm := 0, cold := 0 }
    scan_light_loop ok red_color
      (fun y => __matrix_coord_to_led_index s1.column_index y) ([clear], false)
  else
    let blue_color : PIXEL_COLOR_T :=
      { red := 0, green := 0, blue := COLOR_RESOLUTION, warm := 0, cold := 0 }
    scan_light_loop ok blue_color
      (fun x => __matrix_coord_to_led_index x s1.row_index) ([clear], false)

/-- The function `__scan_animation_effect`: the static locals after the call and the
driver calls it makes, in order.  A failed driver call jumps to `__ERROR`, which skips the
rest of the function. -/
def __scan_animation_effect (ok : PixelCall → Bool) (s : ScanState) :
    ScanState × List PixelCall :=
  let off_color : PIXEL_COLOR_T := { warm := 0, cold := 0, red := 0, green := 0, blue := 0 }
  let clear := PixelCall.set_single_color 0 LED_PIXELS_TOTAL_NUM off_color
  if !(ok clear) then
    (s, [clear])
  else
    let s1 := scan_advance s
    let lit := scan_light ok clear s1
    (s1, if lit.2 then lit.1 else lit.1 ++ [PixelCall.dev_refresh])

/-- The static locals of `__scan_animation_effect` after `n` calls. -/
def scan_state_at (ok : PixelCall → Bool) : Nat → ScanState
  | 0 => scan_state_initial
  | n + 1 => (__scan_animation_effect ok (scan_state_at ok n)).1

/-- A pixel driver whose every call returns `OPRT_OK`. -/
def pixel_ok : PixelCall → Bool := fun _ => true

/-- The red colour of the column scan. -/
def scan_red : PIXEL_COLOR_T :=
  { red := COLOR_RESOLUTION, green := 0, blue := 0, warm := 0, cold := 0 }

/-- The blue colour of the row scan. -/
def scan_blue : PIXEL_COLOR_T :=
  { red := 0, green := 0, blue := COLOR_RESOLUTION, warm := 0, cold := 0 }

/-- Specification side of the scan animation: the state after `n` calls, with
`s = (n div 10) mod 32`: column phase with `column_index = s` for `s < 16`, row phase
with `row_index = s - 16` otherwise. -/
def scan_state_closed (n : Nat) : ScanState :=
  { frame_count := n % 10,
    column_index := if n / 10 % 32 < 16 then n / 10 % 32 else 0,
    row_index := if n / 10 % 32 < 16 then 0 else n / 10 % 32 - 16,
    column_phase := decide (n / 10 % 32 < 16) }

/-! ## Initialisation tables -/

/-- The command macros `ST7789_*` that `cST7789_INIT_SEQ` names.  They are defined in
`atk_t5ai_disp_md0280.h`, outside the sources, so their values are left open. -/
structure ST7789_CMDS where
  ST7789_SWRESET : Nat
  ST7789_SLPOUT : Nat
  ST7789_COLMOD : Nat
  ST7789_VCMOFSET : Nat
  ST7789_PORCTRL : Nat
  ST7789_INVOFF : Nat
  ST7789_GCTRL : Nat
  ST7789_VCOMS : Nat
  ST7789_LCMCTRL : Nat
  ST7789_VDVVRHEN : Nat
  ST7789_VRHS : Nat
  ST7789_VDVSET : Nat
  ST7789_FRCTR2 : Nat
  ST7789_PWCTRL1 : Nat
  ST7789_PWCTRL2 : Nat
  ST7789_MADCTL : Nat
  ST7789_PVGAMCTRL : Nat
  ST7789_NVGAMCTRL : Nat
  ST7789_SPI2EN : Nat
  ST7789_DISPON : Nat

/-- The table `cST7789_INIT_SEQ` (`static const uint32_t []`), for given values of the
command macros. -/
def cST7789_INIT_SEQ (c : ST7789_CMDS) : List Nat := [
    1,    100,  c.ST7789_SWRESET,
    1,    50,   c.ST7789_SLPOUT,
    2,    10,   c.ST7789_COLMOD,    0x05,
    2,    0,    c.ST7789_VCMOFSET,  0x1a,
    6,    0,    c.ST7789_PORCTRL,   0x0c, 0x0c, 0x00, 0x33, 0x33,
    1,    0,    c.ST7789_INVOFF,
    2,    0,    c.ST7789_GCTRL,     0x56,
    2,    0,    c.ST7789_VCOMS,     0x18,
    2,    0,    c.ST7789_LCMCTRL,   0x2c,
    2,    0,    c.ST7789_VDVVRHEN,  0x01,
    2,    0,    c.ST7789_VRHS,      0x1f,
    2,    0,    c.ST7789_VDVSET,    0x20,
    2,    0,    c.ST7789_FRCTR2,    0x0f,
    3,    0,    c.ST7789_PWCTRL1,   0xa6, 0xa1,
    2,    0,    c.ST7789_PWCTRL2,   0x03,
    2,    0,    c.ST7789_MADCTL,    0x00,
    15,   0,    c.ST7789_PVGAMCTRL, 0xd0, 0x0d, 0x14, 0x0b, 0x0b, 0x07, 0x3a, 0x44, 0x50, 0x08, 0x13, 0x13, 0x2d, 0x32,
    15,   0,    c.ST7789_NVGAMCTRL, 0xd0, 0x0d, 0x14, 0x0b, 0x0b, 0x07, 0x3a, 0x44, 0x50, 0x08, 0x13, 0x13, 0x2d, 0x32,
    1,    0,    c.ST7789_SPI2EN,
    1,    10,   c.ST7789_DISPON,
    0]

/-- One record of an initialisation table: the length field `n`, the delay in ms, the
command and its `n - 1` parameter values. -/
structure InitRecord where
  n : Nat
  delay_ms : Nat
  command : Nat
  params : List Nat
  deriving DecidableEq, Repr

/-- Modelled from the spec: the reader of initialisation tables (the routine that consumes
`init_seq` is in the display layer outside the sources).  A table is read as consecutive
records `[n, delay_ms, command, n - 1 parameter values]` and ends at a record length of 0.
The result is the list of records and whatever follows the terminator; `none` when a
record runs past the end of the table or the terminator is missing.  `fuel` bounds the
number of records read. -/
def decode_init_seq : Nat → List Nat → Option (List InitRecord × List Nat)
  | 0, _ => none
  | _ + 1, [] => none
  | _ + 1, 0 :: rest => some ([], rest)
  | fuel + 1, n :: delay_ms :: command :: rest =>
    if rest.length < n - 1 then
      none
    else
      match decode_init_seq fuel (rest.drop (n - 1)) with
      | none => none
      | some (records, tail) =>
        some ({ n := n, delay_ms := delay_ms, command := command,
                params := rest.take (n - 1) } :: records, tail)
  | _ + 1, _ => none

/-- Datasheet values of the ST7789 commands, for concrete evaluations. -/
def sampleSt7789Cmds : ST7789_CMDS :=
  { ST7789_SWRESET := 0x01, ST7789_SLPOUT := 0x11, ST7789_COLMOD := 0x3A,
    ST7789_VCMOFSET := 0xC5, ST7789_PORCTRL := 0xB2, ST7789_INVOFF := 0x20,
    ST7789_GCTRL := 0xB7, ST7789_VCOMS := 0xBB, ST7789_LCMCTRL := 0xC0,
    ST7789_VDVVRHEN := 0xC2, ST7789_VRHS := 0xC3, ST7789_VDVSET := 0xC4,
    ST7789_FRCTR2 := 0xC6, ST7789_PWCTRL1 := 0xD0, ST7789_PWCTRL2 := 0xE8,
    ST7789_MADCTL := 0x36, ST7789_PVGAMCTRL := 0xE0, ST7789_NVGAMCTRL := 0xE1,
    ST7789_SPI2EN := 0xE7, ST7789_DISPON := 0x29 }

end TuyaXiaomou

namespace TuyaXiaomou

/-! ## Lemmas: loops and bits -/

theorem row_index_inj {s y y2 a a2 : Nat} (ha : a < s) (ha2 : a2 < s)
    (h : y * s + a = y2 * s + a2) : y = y2 ∧ a = a2 := by
  rcases Nat.lt_trichotomy y y2 with hlt | heq | hgt
  · have h1 : (y + 1) * s ≤ y2 * s := Nat.mul_le_mul_right s hlt
    rw [Nat.add_mul] at h1
    omega
  · subst heq
    exact ⟨rfl, by omega⟩
  · have h1 : (y2 + 1) * s ≤ y * s := Nat.mul_le_mul_right s hgt
    rw [Nat.add_mul] at h1
    omega

theorem testBit_toU8_or_bit (v bit b : Nat) (hb : b < 8) :
    (toU8 (v ||| (1 <<< bit))).val.testBit b = true ↔ v.testBit b = true ∨ b = bit := by
  have h256 : (256 : Nat) = 2 ^ 8 := by norm_num
  simp only [toU8]
  rw [h256, Nat.testBit_mod_two_pow, Nat.testBit_or, Nat.one_shiftLeft, Nat.testBit_two_pow]
  simp [hb]
  constructor
  · rintro (h | h)
    · exact Or.inl h
    · exact Or.inr h.symm
  · rintro (h | h)
    · exact Or.inl h
    · exact Or.inr h.symm

theorem stride_bound {w x : Nat} (hx : x < w) : x / 8 < (w + 7) / 8 := by omega

theorem cell_lt {s h y a : Nat} (ha : a < s) (hy : y < h) : y * s + a < s * h := by
  have h2 : (y + 1) * s ≤ h * s := Nat.mul_le_mul_right _ hy
  rw [Nat.add_mul, Nat.mul_comm h] at h2
  omega

/-! ## Lemmas: `int` arithmetic inside its range -/

theorem wrap32_of_range {z : Int} (h1 : -2 ^ 31 ≤ z) (h2 : z < 2 ^ 31) : wrap32 z = z := by
  unfold wrap32
  omega

theorem yuv_index_in_range {w h y x : Nat} (hy : y < h) (hx : x < w) (hfit : w * h ≤ 2 ^ 30) :
    yuv_index (w : Int) (y : Int) (x : Int) = ((2 * (y * w + x) : Nat) : Int) := by
  have h1 : (y + 1) * w ≤ h * w := Nat.mul_le_mul_right w hy
  rw [Nat.add_mul, Nat.mul_comm h w] at h1
  have hprod : (y : Int) * (w : Int) = ((y * w : Nat) : Int) := by push_cast; rfl
  have e1 : wrap32 ((y * w : Nat) : Int) = ((y * w : Nat) : Int) :=
    wrap32_of_range (by omega) (by omega)
  have e2 : wrap32 (((y * w : Nat) : Int) * 2) = ((y * w : Nat) : Int) * 2 :=
    wrap32_of_range (by omega) (by omega)
  have e3 : wrap32 ((x : Int) / 2 * 4) = (x : Int) / 2 * 4 :=
    wrap32_of_range (by omega) (by omega)
  have e4 : wrap32 (((y * w : Nat) : Int) * 2 + (x : Int) / 2 * 4) =
      ((y * w : Nat) : Int) * 2 + (x : Int) / 2 * 4 :=
    wrap32_of_range (by omega) (by omega)
  have e5 : wrap32 ((x : Int) % 2 * 2) = (x : Int) % 2 * 2 :=
    wrap32_of_range (by omega) (by omega)
  have e6 : wrap32 (((y * w : Nat) : Int) * 2 + (x : Int) / 2 * 4 + (x : Int) % 2 * 2) =
      ((y * w : Nat) : Int) * 2 + (x : Int) / 2 * 4 + (x : Int) % 2 * 2 :=
    wrap32_of_range (by omega) (by omega)
  unfold yuv_index
  rw [hprod, e1, e2, e3, e4, e5, e6]
  omega

theorem binary_stride_in_range {w : Nat} (hw : w ≤ 2 ^ 30) :
    binary_stride (w : Int) = (((w + 7) / 8 : Nat) : Int) := by
  unfold binary_stride
  rw [wrap32_of_range (by omega) (by omega), Int.tdiv_eq_ediv (by omega) (by omega)]
  push_cast
  rfl

theorem binary_index_in_range {w h y x : Nat} (hy : y < h) (hx : x < 8 * ((w + 7) / 8))
    (hw : 0 < w) (hfit : w * h ≤ 2 ^ 30) :
    binary_index (((w + 7) / 8 : Nat) : Int) (y : Int) (x : Int) =
      ((y * ((w + 7) / 8) + x / 8 : Nat) : Int) := by
  have h1 : (y + 1) * ((w + 7) / 8) ≤ h * ((w + 7) / 8) := Nat.mul_le_mul_right _ hy
  rw [Nat.add_mul] at h1
  have h2 : h * ((w + 7) / 8) ≤ h * w := Nat.mul_le_mul_left h (by omega)
  rw [Nat.mul_comm h w] at h2
  have hprod : (y : Int) * (((w + 7) / 8 : Nat) : Int) = ((y * ((w + 7) / 8) : Nat) : Int) := by
    push_cast; rfl
  have e1 : wrap32 ((y * ((w + 7) / 8) : Nat) : Int) = ((y * ((w + 7) / 8) : Nat) : Int) :=
    wrap32_of_range (by omega) (by omega)
  have e2 : wrap32 (((y * ((w + 7) / 8) : Nat) : Int) + (x : Int) / 8) =
      ((y * ((w + 7) / 8) : Nat) : Int) + (x : Int) / 8 :=
    wrap32_of_range (by omega) (by omega)
  unfold binary_index
  rw [hprod, e1, e2]
  omega

theorem clear_length_in_range {w h : Nat} (hw : 0 < w) (hfit : w * h ≤ 2 ^ 30) :
    clear_length (((w + 7) / 8 : Nat) : Int) (h : Int) = (w + 7) / 8 * h := by
  have h2 : (w + 7) / 8 * h ≤ w * h := Nat.mul_le_mul_right h (by omega)
  have hprod : (((w + 7) / 8 : Nat) : Int) * (h : Int) = (((w + 7) / 8 * h : Nat) : Int) := by
    push_cast; rfl
  unfold clear_length
  rw [hprod, wrap32_of_range (by omega) (by omega)]
  omega

theorem bit_position_cast (x : Nat) : ((x : Int) % 8).toNat = x % 8 := by omega

/-- Outside the range the index arithmetic departs from `2 * (y * width + x)`: for
`width = 2147483647` the luminance index of pixel `(1073741824, 0)` wraps from 2147483648
to -2147483648. -/
theorem yuv_index_wraps :
    yuv_index 2147483647 0 1073741824 = -2147483648 ∧
      (2 : Int) * (0 * 2147483647 + 1073741824) = 2147483648 := by
  decide

/-! ## Lemmas: one pixel step -/

theorem pixel_frame (p q width s : Int) (t : U8) (y x : Int) (mem : Mem) (a : Int)
    (ha : a ≠ q + binary_index s y x) :
    yuv422_to_binary_pixel p q width s t y x mem a = mem a := by
  unfold yuv422_to_binary_pixel
  by_cases hl : mem (p + yuv_index width y x) ≥ t
  · simp only [hl, if_true, memWrite, ha, if_false]
  · simp only [hl, if_false]

theorem pixel_bit (p q width s : Int) (t : U8) (y x : Int) (mem : Mem) (a : Int) (b : Nat)
    (hb : b < 8) :
    bitAt (yuv422_to_binary_pixel p q width s t y x mem) a b = true ↔
      bitAt mem a b = true ∨
        (a = q + binary_index s y x ∧ b = (x % 8).toNat ∧
          mem (p + yuv_index width y x) ≥ t) := by
  unfold yuv422_to_binary_pixel
  by_cases hl : mem (p + yuv_index width y x) ≥ t
  · simp only [hl, if_true, and_true]
    by_cases hi : a = q + binary_index s y x
    · subst hi
      simp only [bitAt, memWrite, if_true, true_and]
      exact testBit_toU8_or_bit _ _ _ hb
    · simp only [bitAt, memWrite, hi, if_false, false_and, or_false]
  · simp only [hl, if_false, and_false, or_false]

theorem row_frame (p q width s : Int) (t : U8) (y : Int) (a : Int) (n : Nat) (mem : Mem)
    (ha : ∀ x, x < n → a ≠ q + binary_index s y (x : Int)) :
    forLoop n (fun x acc => yuv422_to_binary_pixel p q width s t y x acc) mem a = mem a := by
  induction n with
  | zero => rfl
  | succ n ih =>
    simp only [forLoop]
    rw [pixel_frame _ _ _ _ _ _ _ _ _ (ha n (Nat.lt_succ_self n))]
    exact ih (fun x hx => ha x (Nat.lt_succ_of_lt hx))

theorem loops_frame (p q width s : Int) (t : U8) (c : Nat) (a : Int) (m : Nat) (mem : Mem)
    (ha : ∀ y, y < m → ∀ x, x < c → a ≠ q + binary_index s (y : Int) (x : Int)) :
    yuv422_to_binary_loops p q width s t m c mem a = mem a := by
  unfold yuv422_to_binary_loops
  induction m with
  | zero => rfl
  | succ m ih =>
    simp only [forLoop]
    rw [row_frame _ _ _ _ _ _ _ _ _ (ha m (Nat.lt_succ_self m))]
    exact ih (fun y hy => ha y (Nat.lt_succ_of_lt hy))

theorem row_bit (p q width s : Int) (t : U8) (y : Int) (a : Int) (b : Nat) (hb : b < 8)
    (n : Nat) (mem : Mem)
    (hsep : ∀ x, x < n → ∀ x2, x2 < n →
      p + yuv_index width y (x : Int) ≠ q + binary_index s y (x2 : Int)) :
    bitAt (forLoop n (fun x acc => yuv422_to_binary_pixel p q width s t y x acc) mem) a b
        = true ↔
      bitAt mem a b = true ∨
        ∃ x, x < n ∧ a = q + binary_index s y (x : Int) ∧ b = x % 8 ∧
          mem (p + yuv_index width y (x : Int)) ≥ t := by
  induction n with
  | zero => simp [forLoop]
  | succ n ih =>
    have ih2 := ih (fun x hx x2 hx2 => hsep x (Nat.lt_succ_of_lt hx) x2 (Nat.lt_succ_of_lt hx2))
    have hread : forLoop n (fun x acc => yuv422_to_binary_pixel p q width s t y x acc) mem
        (p + yuv_index width y (n : Int)) = mem (p + yuv_index width y (n : Int)) :=
      row_frame _ _ _ _ _ _ _ _ _
        (fun x hx => hsep n (Nat.lt_succ_self n) x (Nat.lt_succ_of_lt hx))
    simp only [forLoop]
    rw [pixel_bit _ _ _ _ _ _ _ _ _ _ hb, ih2, hread, bit_position_cast]
    constructor
    · rintro ((h | ⟨x, hx, h⟩) | h)
      · exact Or.inl h
      · exact Or.inr ⟨x, Nat.lt_succ_of_lt hx, h⟩
      · exact Or.inr ⟨n, Nat.lt_succ_self n, h⟩
    · rintro (h | ⟨x, hx, h⟩)
      · exact Or.inl (Or.inl h)
      · rcases Nat.lt_succ_iff_lt_or_eq.mp hx with hlt | heq
        · exact Or.inl (Or.inr ⟨x, hlt, h⟩)
        · subst heq
          exact Or.inr h

theorem loops_bit (p q width s : Int) (t : U8) (c : Nat) (a : Int) (b : Nat) (hb : b < 8)
    (m : Nat) (mem : Mem)
    (hsep : ∀ y, y < m → ∀ x, x < c → ∀ y2, y2 < m → ∀ x2, x2 < c →
      p + yuv_index width (y : Int) (x : Int) ≠ q + binary_index s (y2 : Int) (x2 : Int)) :
    bitAt (yuv422_to_binary_loops p q width s t m c mem) a b = true ↔
      bitAt mem a b = true ∨
        ∃ y, y < m ∧ ∃ x, x < c ∧ a = q + binary_index s (y : Int) (x : Int) ∧ b = x % 8 ∧
          mem (p + yuv_index width (y : Int) (x : Int)) ≥ t := by
  induction m with
  | zero => simp [yuv422_to_binary_loops, forLoop]
  | succ m ih =>
    have ih2 := ih (fun y hy x hx y2 hy2 x2 hx2 =>
      hsep y (Nat.lt_succ_of_lt hy) x hx y2 (Nat.lt_succ_of_lt hy2) x2 hx2)
    have hread : ∀ x, x < c →
        yuv422_to_binary_loops p q width s t m c mem (p + yuv_index width (m : Int) (x : Int)) =
          mem (p + yuv_index width (m : Int) (x : Int)) := fun x hx =>
      loops_frame _ _ _ _ _ _ _ _ _
        (fun y hy x2 hx2 => hsep m (Nat.lt_succ_self m) x hx y (Nat.lt_succ_of_lt hy) x2 hx2)
    have hstep : yuv422_to_binary_loops p q width s t (m + 1) c mem =
        forLoop c (fun x acc => yuv422_to_binary_pixel p q width s t (m : Int) x acc)
          (yuv422_to_binary_loops p q width s t m c mem) := rfl
    rw [hstep, row_bit _ _ _ _ _ _ _ _ hb _ _
      (fun x hx x2 hx2 => hsep m (Nat.lt_succ_self m) x hx m (Nat.lt_succ_self m) x2 hx2), ih2]
    constructor
    · rintro ((h | ⟨y, hy, h⟩) | ⟨x, hx, h1, h2, h3⟩)
      · exact Or.inl h
      · exact Or.inr ⟨y, Nat.lt_succ_of_lt hy, h⟩
      · rw [hread x hx] at h3
        exact Or.inr ⟨m, Nat.lt_succ_self m, x, hx, h1, h2, h3⟩
    · rintro (h | ⟨y, hy, x, hx, h1, h2, h3⟩)
      · exact Or.inl (Or.inl h)
      · rcases Nat.lt_succ_iff_lt_or_eq.mp hy with hlt | heq
        · exact Or.inl (Or.inr ⟨y, hlt, x, hx, h1, h2, h3⟩)
        · subst heq
          rw [← hread x hx] at h3
          exact Or.inr ⟨x, hx, h1, h2, h3⟩

theorem memset_inside (mem : Mem) (s : Int) (c : U8) (n : Nat) (a : Int)
    (h1 : s ≤ a) (h2 : a < s + n) : memset mem s c n a = c := by
  simp only [memset, h1, h2, and_self, if_true]

theorem memset_outside (mem : Mem) (s : Int) (c : U8) (n : Nat) (a : Int)
    (h : a < s ∨ s + n ≤ a) : memset mem s c n a = mem a := by
  have hn : ¬ (s ≤ a ∧ a < s + n) := by omega
  simp only [memset, hn, if_false]

theorem pixel_offset_lt {w h y x : Nat} (hy : y < h) (hx : x < w) : y * w + x < w * h :=
  cell_lt hx hy

theorem write_address_in_range {w h y x : Nat} (bin : Int) (hy : y < h) (hx : x < w)
    (hfit : w * h ≤ 2 ^ 30) :
    bin + binary_index (((w + 7) / 8 : Nat) : Int) (y : Int) (x : Int) =
      bin + ((y * ((w + 7) / 8) + x / 8 : Nat) : Int) := by
  rw [binary_index_in_range hy (by omega) (by omega) hfit]

theorem write_address_bounds {w h y x : Nat} (bin : Int) (hy : y < h) (hx : x < w)
    (hfit : w * h ≤ 2 ^ 30) :
    bin ≤ bin + binary_index (((w + 7) / 8 : Nat) : Int) (y : Int) (x : Int) ∧
      bin + binary_index (((w + 7) / 8 : Nat) : Int) (y : Int) (x : Int) <
        bin + (((w + 7) / 8 * h : Nat) : Int) := by
  rw [write_address_in_range bin hy hx hfit]
  have h1 := cell_lt (stride_bound hx) hy
  omega

theorem read_address_bounds {w h y x : Nat} (yuv : Int) (hy : y < h) (hx : x < w)
    (hfit : w * h ≤ 2 ^ 30) :
    yuv ≤ yuv + yuv_index (w : Int) (y : Int) (x : Int) ∧
      yuv + yuv_index (w : Int) (y : Int) (x : Int) < yuv + ((2 * (w * h) : Nat) : Int) := by
  rw [yuv_index_in_range hy hx hfit]
  have h1 := pixel_offset_lt hy hx
  omega

theorem regions_apart {yuv bin r v a b : Int} (hr1 : yuv ≤ r) (hr2 : r < yuv + b)
    (hv1 : bin ≤ v) (hv2 : v < bin + a) (hsep : bin + a ≤ yuv ∨ yuv + b ≤ bin) : r ≠ v := by
  omega

theorem outside_of_apart {yuv bin r a b : Int} (hr1 : yuv ≤ r) (hr2 : r < yuv + b)
    (hsep : bin + a ≤ yuv ∨ yuv + b ≤ bin) : r < bin ∨ bin + a ≤ r := by
  omega

theorem inside_of_lt (bin : Int) {k n : Nat} (h : k < n) :
    bin ≤ bin + (k : Int) ∧ bin + (k : Int) < bin + (n : Int) := by
  omega

theorem offset_inj {bin : Int} {a b : Nat} (h : bin + (a : Int) = bin + (b : Int)) : a = b := by
  omega

theorem div_mod_inj {x x2 : Nat} (h1 : x / 8 = x2 / 8) (h2 : x % 8 = x2 % 8) : x = x2 := by
  omega

theorem offset_outside {yuv bin i a b : Int} (h0 : 0 ≤ i) (h1 : i < b)
    (hsep : bin + a ≤ yuv ∨ yuv + b ≤ bin) : yuv + i < bin ∨ bin + a ≤ yuv + i := by
  omega

theorem ne_of_outside {bin r v a : Int} (ho : r < bin ∨ bin + a ≤ r) (hv1 : bin ≤ v)
    (hv2 : v < bin + a) : r ≠ v := by
  omega

theorem luminance_total_succ (yuv : ByteBuf) (n : Nat) :
    luminance_total yuv (n + 1) = luminance_total yuv n + (yuv (2 * n)).val := by
  simp [luminance_total, List.range_succ]

theorem luminance_total_add (yuv : ByteBuf) (a n : Nat) :
    luminance_total yuv (a + n) =
      luminance_total yuv a + ((List.range n).map (fun x => (yuv (2 * (a + x))).val)).sum := by
  induction n with
  | zero => simp
  | succ n ih =>
    rw [← Nat.add_assoc, luminance_total_succ, ih]
    simp [List.range_succ]
    omega

theorem luminance_total_le (yuv : ByteBuf) (n : Nat) : luminance_total yuv n ≤ 255 * n := by
  induction n with
  | zero => simp [luminance_total]
  | succ n ih =>
    rw [luminance_total_succ]
    have := (yuv (2 * n)).isLt
    omega

theorem sum_row_mod (mem : Mem) (p : Int) {w h y : Nat} (hy : y < h) (hfit : w * h ≤ 2 ^ 30)
    (n a : Nat) (hn : n ≤ w) :
    (forLoop n (fun x acc =>
        (acc + (mem (p + yuv_index (w : Int) (y : Int) (x : Int))).val) % 2 ^ 32) a) % 2 ^ 32 =
      (a + ((List.range n).map (fun x => (bytesAt mem p (2 * (y * w + x))).val)).sum)
        % 2 ^ 32 := by
  induction n with
  | zero => simp [forLoop]
  | succ n ih =>
    simp only [forLoop, Nat.mod_mod]
    rw [Nat.add_mod, ih (by omega), ← Nat.add_mod, yuv_index_in_range hy (by omega) hfit]
    simp [List.range_succ, Nat.add_assoc, bytesAt]

theorem sum_loops_mod (mem : Mem) (p : Int) {w h : Nat} (hfit : w * h ≤ 2 ^ 30) (m : Nat)
    (hm : m ≤ h) :
    (luminance_sum_loops mem p (w : Int) m w) % 2 ^ 32 =
      (luminance_total (bytesAt mem p) (w * m)) % 2 ^ 32 := by
  unfold luminance_sum_loops
  induction m with
  | zero => simp [forLoop, luminance_total]
  | succ m ih =>
    simp only [forLoop]
    rw [sum_row_mod mem p (by omega : m < h) hfit w _ (Nat.le_refl w), Nat.add_mod,
      ih (by omega), ← Nat.add_mod, Nat.mul_succ, luminance_total_add, Nat.mul_comm m w]

theorem sum_row_lt (mem : Mem) (p width y : Int) (n a : Nat) (ha : a < 2 ^ 32) :
    forLoop n (fun x acc => (acc + (mem (p + yuv_index width y (x : Int))).val) % 2 ^ 32) a
      < 2 ^ 32 := by
  cases n with
  | zero => simpa [forLoop] using ha
  | succ n =>
    simp only [forLoop]
    exact Nat.mod_lt _ (by norm_num)

theorem sum_loops_lt (mem : Mem) (p width : Int) (m c : Nat) :
    luminance_sum_loops mem p width m c < 2 ^ 32 := by
  unfold luminance_sum_loops
  induction m with
  | zero => simp [forLoop]
  | succ m ih =>
    simp only [forLoop]
    exact sum_row_lt _ _ _ _ _ _ ih

/-- Without wrap-around the accumulation loops compute the luminance total. -/
theorem sum_loops_eq (mem : Mem) (p : Int) (w h : Nat) (hfit : w * h * 255 < 2 ^ 32) :
    luminance_sum_loops mem p (w : Int) h w = luminance_total (bytesAt mem p) (w * h) := by
  have h1 := sum_loops_mod mem p (by omega : w * h ≤ 2 ^ 30) h (Nat.le_refl h)
  have h2 := sum_loops_lt mem p (w : Int) h w
  have h3 := luminance_total_le (bytesAt mem p) (w * h)
  rw [Nat.mod_eq_of_lt h2, Nat.mod_eq_of_lt (by omega)] at h1
  exact h1

theorem average_luminance_lt (yuv : ByteBuf) (n : Nat) : average_luminance yuv n < 256 := by
  unfold average_luminance
  rcases Nat.eq_zero_or_pos n with h0 | hpos
  · subst h0
    simp
  · have h3 := luminance_total_le yuv n
    have : luminance_total yuv n / n ≤ 255 := by
      rw [Nat.div_le_iff_le_mul_add_pred hpos]
      have : 255 * n = n * 255 := Nat.mul_comm _ _
      omega
    omega

/-! ## Lemmas: word repacking and window bytes -/

theorem forLoop_map_at (g : U16 → U16) (src : WordBuf) (n : Nat) (dst : WordBuf) (i : Nat) :
    forLoop n (fun k d => bufSet d k (g (src k))) dst i =
      if i < n then g (src i) else dst i := by
  induction n with
  | zero => simp [forLoop]
  | succ n ih =>
    simp only [forLoop, bufSet]
    by_cases hi : i = n
    · subst hi
      simp
    · rw [if_neg hi, ih]
      by_cases hlt : i < n
      · simp [hlt, Nat.lt_succ_of_lt hlt]
      · have : ¬ i < n + 1 := by omega
        simp [hlt, this]

theorem mask_0FFE_bits : ∀ j, j < 20 → Nat.testBit 0x0FFE j = decide (1 ≤ j ∧ j ≤ 11) := by
  decide

theorem mask_E000_bits : ∀ j, j < 20 → Nat.testBit 0xE000 j = decide (13 ≤ j ∧ j ≤ 15) := by
  decide

theorem convert_expr_lt (s : Nat) :
    ((s &&& 0x0FFE) >>> 1) ||| ((s &&& 0xE000) >>> 2) < 2 ^ 14 := by
  apply Nat.or_lt_two_pow
  · rw [Nat.shiftRight_eq_div_pow]
    have : s &&& 0x0FFE ≤ 0x0FFE := Nat.and_le_right
    omega
  · rw [Nat.shiftRight_eq_div_pow]
    have : s &&& 0xE000 ≤ 0xE000 := Nat.and_le_right
    omega

theorem convert_pixel_val (s : U16) :
    (convert_pixel s).val = ((s.val &&& 0x0FFE) >>> 1) ||| ((s.val &&& 0xE000) >>> 2) := by
  have h := convert_expr_lt s.val
  simp only [convert_pixel, toU16]
  exact Nat.mod_eq_of_lt (by omega)

theorem convert_pixel_testBit (s : U16) (j : Nat) (hj : j < 16) :
    (convert_pixel s).val.testBit j =
      ((s.val.testBit (1 + j) && decide (j ≤ 10)) ||
        (s.val.testBit (2 + j) && decide (11 ≤ j ∧ j ≤ 13))) := by
  rw [convert_pixel_val, Nat.testBit_or, Nat.testBit_shiftRight, Nat.testBit_shiftRight,
    Nat.testBit_and, Nat.testBit_and, mask_0FFE_bits _ (by omega), mask_E000_bits _ (by omega)]
  have e1 : decide (1 ≤ 1 + j ∧ 1 + j ≤ 11) = decide (j ≤ 10) := by
    apply decide_eq_decide.mpr
    omega
  have e2 : decide (13 ≤ 2 + j ∧ 2 + j ≤ 15) = decide (11 ≤ j ∧ j ≤ 13) := by
    apply decide_eq_decide.mpr
    omega
  rw [e1, e2]

theorem byte_hi_eq (x : Nat) (hx : x % 256 ≤ 254) (k : Nat) (hk : k + x % 256 < 256) :
    toU8 ((x >>> 8) &&& 0xFF) = toU8 ((x + k) / 256) := by
  have h255 : (0xFF : Nat) = 2 ^ 8 - 1 := by norm_num
  apply Fin.ext
  simp only [toU8]
  rw [h255, Nat.and_pow_two_sub_one_eq_mod, Nat.shiftRight_eq_div_pow]
  omega

theorem byte_lo_eq (x k : Nat) : toU8 ((x &&& 0xFF) + k) = toU8 (x + k) := by
  have h255 : (0xFF : Nat) = 2 ^ 8 - 1 := by norm_num
  apply Fin.ext
  simp only [toU8]
  rw [h255, Nat.and_pow_two_sub_one_eq_mod]
  omega

/-! ## Lemmas: the static SPI configuration -/

theorem static_cfg_fixed_initial : static_cfg_fixed sg_disp_spi_cfg := by
  refine ⟨rfl, rfl, rfl, rfl, rfl⟩

theorem static_cfg_fixed_step (inv : Int) (reg : String → TDD_DISP_SPI_CFG_T → Int)
    (sg : TDD_DISP_SPI_CFG_T) (name : Option String) (dev_cfg : Option DISP_SPI_DEVICE_CFG_T)
    (h : static_cfg_fixed sg) :
    static_cfg_fixed (tdd_disp_spi_st7735s_xlt_register inv reg sg name dev_cfg).static_cfg := by
  cases name with
  | none => exact h
  | some n =>
    cases dev_cfg with
    | none => exact h
    | some d => exact h

theorem static_cfg_fixed_foldl (inv : Int) (reg : String → TDD_DISP_SPI_CFG_T → Int)
    (history : List (Option String × Option DISP_SPI_DEVICE_CFG_T)) :
    ∀ sg : TDD_DISP_SPI_CFG_T, static_cfg_fixed sg →
      static_cfg_fixed (history.foldl
        (fun sg call => (tdd_disp_spi_st7735s_xlt_register inv reg sg call.1 call.2).static_cfg)
        sg) := by
  induction history with
  | nil => intro sg h; exact h
  | cons call rest ih =>
    intro sg h
    exact ih _ (static_cfg_fixed_step inv reg sg call.1 call.2 h)

theorem static_cfg_fixed_history (inv : Int) (reg : String → TDD_DISP_SPI_CFG_T → Int)
    (history : List (Option String × Option DISP_SPI_DEVICE_CFG_T)) :
    static_cfg_fixed (register_history inv reg history) :=
  static_cfg_fixed_foldl inv reg history _ static_cfg_fixed_initial

/-! ## Lemmas: effect rotation and scan animation -/

theorem effect_of_mode_isSome (m : Nat) (hm : m < 8) :
    ∃ e, effect_of_mode m = some e ∧ e ≠ Effect.__color_wave_effect := by
  interval_cases m <;> exact ⟨_, rfl, by decide⟩

theorem task_iteration_state (m c : Nat) (hm : m < 8) (hc : c < 200) :
    (__example_pixels_task_iteration { effect_mode := m, effect_cycles := c }).2 =
      if c + 1 ≥ 200 then { effect_mode := (m + 1) % 8, effect_cycles := 0 }
      else { effect_mode := m, effect_cycles := c + 1 } := by
  obtain ⟨e, he, _⟩ := effect_of_mode_isSome m hm
  have h1 : (c + 1) % 2 ^ 32 = c + 1 := Nat.mod_eq_of_lt (by omega)
  have h2 : (m + 1) % 2 ^ 32 = m + 1 := Nat.mod_eq_of_lt (by omega)
  simp only [__example_pixels_task_iteration, he, h1, h2]
  split <;> rfl

theorem task_state_at_eq (n : Nat) :
    task_state_at n = { effect_mode := n / 200 % 8, effect_cycles := n % 200 } := by
  induction n with
  | zero => rfl
  | succ n ih =>
    rw [task_state_at, ih,
      task_iteration_state _ _ (Nat.mod_lt _ (by decide)) (Nat.mod_lt _ (by decide))]
    split
    · next h =>
      have e1 : (n / 200 % 8 + 1) % 8 = (n + 1) / 200 % 8 := by omega
      have e2 : 0 = (n + 1) % 200 := by omega
      rw [e1, ← e2]
    · next h =>
      have e1 : n / 200 % 8 = (n + 1) / 200 % 8 := by omega
      have e2 : n % 200 + 1 = (n + 1) % 200 := by omega
      rw [← e1, e2]

theorem scan_effect_state (ok : PixelCall → Bool) (hok : ∀ c, ok c = true) (s : ScanState) :
    (__scan_animation_effect ok s).1 = scan_advance s := by
  simp only [__scan_animation_effect, hok, Bool.not_true, Bool.false_eq_true, if_false]

theorem scan_advance_closed (n : Nat) :
    scan_advance (scan_state_closed n) = scan_state_closed (n + 1) := by
  have h1 : (n % 10 + 1) % 2 ^ 32 = n % 10 + 1 := Nat.mod_eq_of_lt (by omega)
  by_cases hph : n / 10 % 32 < 16
  · have h2 : (n / 10 % 32 + 1) % 2 ^ 32 = n / 10 % 32 + 1 := Nat.mod_eq_of_lt (by omega)
    simp only [scan_advance, scan_state_closed, hph, if_true, decide_True, h1, h2]
    by_cases hf : n % 10 + 1 ≥ 10
    · by_cases hc : n / 10 % 32 + 1 ≥ 16
      · simp only [hf, hc, if_true, ScanState.mk.injEq]
        have e : ¬ ((n + 1) / 10 % 32 < 16) := by omega
        simp only [e, if_false, decide_False]
        refine ⟨?_, ?_, ?_, ?_⟩ <;> first | trivial | omega
      · simp only [hf, hc, if_true, if_false, ScanState.mk.injEq]
        have e : (n + 1) / 10 % 32 < 16 := by omega
        simp only [e, if_true, decide_True]
        refine ⟨?_, ?_, ?_, ?_⟩ <;> first | trivial | omega
    · simp only [hf, if_false, ScanState.mk.injEq]
      have e : (n + 1) / 10 % 32 < 16 := by omega
      simp only [e, if_true, decide_True]
      refine ⟨?_, ?_, ?_, ?_⟩ <;> first | trivial | omega
  · have h3 : (n / 10 % 32 - 16 + 1) % 2 ^ 32 = n / 10 % 32 - 16 + 1 :=
      Nat.mod_eq_of_lt (by omega)
    simp only [scan_advance, scan_state_closed, hph, if_false, decide_False, h1, h3,
      Bool.false_eq_true]
    by_cases hf : n % 10 + 1 ≥ 10
    · by_cases hr : n / 10 % 32 - 16 + 1 ≥ 16
      · simp only [hf, hr, if_true, ScanState.mk.injEq]
        have e : (n + 1) / 10 % 32 < 16 := by omega
        simp only [e, if_true, decide_True]
        refine ⟨?_, ?_, ?_, ?_⟩ <;> first | trivial | omega
      · simp only [hf, hr, if_true, if_false, ScanState.mk.injEq]
        have e : ¬ ((n + 1) / 10 % 32 < 16) := by omega
        simp only [e, if_false, decide_False]
        refine ⟨?_, ?_, ?_, ?_⟩ <;> first | trivial | omega
    · simp only [hf, if_false, ScanState.mk.injEq]
      have e : ¬ ((n + 1) / 10 % 32 < 16) := by omega
      simp only [e, if_false, decide_False]
      refine ⟨?_, ?_, ?_, ?_⟩ <;> first | trivial | omega

theorem scan_state_at_closed (ok : PixelCall → Bool) (hok : ∀ c, ok c = true) (n : Nat) :
    scan_state_at ok n = scan_state_closed n := by
  induction n with
  | zero => rfl
  | succ n ih => rw [scan_state_at, scan_effect_state ok hok, ih, scan_advance_closed]

/-! ## Claims about `yuv422_to_binary` and `yuv422_to_binary_adaptive` -/

/-- C1 as stated fails when the two buffers overlap: with `binary_data == yuv422_data`,
every byte 200, an 8 x 1 image and threshold 100, the call returns 0 but `memset` clears
the luminance byte of pixel `(0, 0)` before it is read, so output byte 0 is `0xFE`: bit 0
is clear although the luminance byte of pixel `(0, 0)` is at least 100, both before the
call (200) and after it (`0xFE`). -/
theorem yuv422_to_binary_overlap :
    (yuv422_to_binary mem200 (some 4096) 8 1 (some 4096) 100).1 = 0 ∧
    ((yuv422_to_binary mem200 (some 4096) 8 1 (some 4096) 100).2 4096).val = 0xFE ∧
    bitAt (yuv422_to_binary mem200 (some 4096) 8 1 (some 4096) 100).2
      (4096 + (((0 : Nat) : Int) * ((8 + 7) / 8) + ((0 : Nat) : Int) / 8)) (0 % 8) = false ∧
    mem200 (4096 + 2 * (((0 : Nat) : Int) * 8 + ((0 : Nat) : Int))) ≥ 100 ∧
    (yuv422_to_binary mem200 (some 4096) 8 1 (some 4096) 100).2
      (4096 + 2 * (((0 : Nat) : Int) * 8 + ((0 : Nat) : Int))) ≥ 100 := by
  decide

/-- C1, amended: for non-null input and output buffers that do not overlap, `width > 0`,
`height > 0` with `width * height <= 2^30` (so that no `int` computation overflows) and any
threshold `t`, `yuv422_to_binary` returns 0, leaves the input buffer as it was, and for
every pixel `(x, y)` of the image bit `x mod 8` of output byte
`y * ((width + 7) / 8) + x / 8` is set exactly when the luminance byte
`yuv422_data[2 * (y * width + x)]` is at least `t`. -/
theorem yuv422_to_binary_threshold (mem : Mem) (yuv bin width height : Int) (t : U8)
    (hw : 0 < width) (hh : 0 < height) (hfit : width * height ≤ 2 ^ 30)
    (hsep : bin + (width + 7) / 8 * height ≤ yuv ∨ yuv + 2 * (width * height) ≤ bin) :
    (yuv422_to_binary mem (some yuv) width height (some bin) t).1 = 0 ∧
    (∀ x y : Nat, (x : Int) < width → (y : Int) < height →
      (bitAt (yuv422_to_binary mem (some yuv) width height (some bin) t).2
          (bin + ((y : Int) * ((width + 7) / 8) + (x : Int) / 8)) (x % 8) = true ↔
        mem (yuv + 2 * ((y : Int) * width + (x : Int))) ≥ t)) ∧
    (∀ i : Int, 0 ≤ i → i < 2 * (width * height) →
      (yuv422_to_binary mem (some yuv) width height (some bin) t).2 (yuv + i) =
        mem (yuv + i)) := by
  obtain ⟨w, rfl⟩ : ∃ w : Nat, width = (w : Int) :=
    ⟨width.toNat, (Int.toNat_of_nonneg (le_of_lt hw)).symm⟩
  obtain ⟨h, rfl⟩ : ∃ h : Nat, height = (h : Int) :=
    ⟨height.toNat, (Int.toNat_of_nonneg (le_of_lt hh)).symm⟩
  have hguard : ¬ ((w : Int) ≤ 0 ∨ (h : Int) ≤ 0) := by omega
  have hwpos : 0 < w := by omega
  have hhpos : 0 < h := by omega
  have hfitN : w * h ≤ 2 ^ 30 := by exact_mod_cast hfit
  have hwle : w ≤ 2 ^ 30 := le_trans (Nat.le_mul_of_pos_right w hhpos) hfitN
  have hs : ((w : Int) + 7) / 8 = (((w + 7) / 8 : Nat) : Int) := by push_cast; rfl
  have hsh : (((w + 7) / 8 : Nat) : Int) * (h : Int) = (((w + 7) / 8 * h : Nat) : Int) := by
    push_cast; rfl
  have hwh : 2 * ((w : Int) * (h : Int)) = ((2 * (w * h) : Nat) : Int) := by push_cast; rfl
  rw [hs, hsh, hwh] at hsep
  have hni : ∀ y, y < h → ∀ x, x < w → ∀ y2, y2 < h → ∀ x2, x2 < w →
      yuv + yuv_index (w : Int) (y : Int) (x : Int) ≠
        bin + binary_index (((w + 7) / 8 : Nat) : Int) (y2 : Int) (x2 : Int) := by
    intro y hy x hx y2 hy2 x2 hx2
    have h1 := read_address_bounds yuv hy hx hfitN
    have h2 := write_address_bounds bin hy2 hx2 hfitN
    exact regions_apart h1.1 h1.2 h2.1 h2.2 hsep
  simp only [yuv422_to_binary, hguard, if_false, Int.toNat_natCast,
    binary_stride_in_range hwle, clear_length_in_range hwpos hfitN, true_and]
  constructor
  · intro x y hx hy
    have hxN : x < w := Int.ofNat_lt.mp hx
    have hyN : y < h := Int.ofNat_lt.mp hy
    have hb : x % 8 < 8 := Nat.mod_lt _ (by decide)
    have hcell := inside_of_lt bin (cell_lt (stride_bound hxN) hyN)
    have hrd := read_address_bounds yuv hyN hxN hfitN
    have hout := outside_of_apart hrd.1 hrd.2 hsep
    have haddr : bin + ((y : Int) * (((w : Int) + 7) / 8) + (x : Int) / 8) =
        bin + ((y * ((w + 7) / 8) + x / 8 : Nat) : Int) := by
      rw [hs]; push_cast; rfl
    have hlum : yuv + 2 * ((y : Int) * (w : Int) + (x : Int)) =
        yuv + ((2 * (y * w + x) : Nat) : Int) := by push_cast; rfl
    rw [haddr, hlum, loops_bit _ _ _ _ _ _ _ _ hb _ _ hni]
    have hclear : bitAt (memset mem bin 0 ((w + 7) / 8 * h))
        (bin + ((y * ((w + 7) / 8) + x / 8 : Nat) : Int)) (x % 8) = false := by
      rw [bitAt, memset_inside _ _ _ _ _ hcell.1 hcell.2]
      simp
    have hread : memset mem bin 0 ((w + 7) / 8 * h) (yuv + yuv_index (w : Int) (y : Int) (x : Int))
        = mem (yuv + ((2 * (y * w + x) : Nat) : Int)) := by
      rw [memset_outside _ _ _ _ _ hout, yuv_index_in_range hyN hxN hfitN]
    rw [hclear]
    constructor
    · rintro (h0 | ⟨y2, hy2, x2, hx2, hi, hbit, hl⟩)
      · exact absurd h0 (by simp)
      · rw [write_address_in_range bin hy2 hx2 hfitN] at hi
        obtain ⟨hyy, hd⟩ :=
          row_index_inj (stride_bound hxN) (stride_bound hx2) (offset_inj hi)
        have hxx : x = x2 := div_mod_inj hd hbit
        subst hyy
        subst hxx
        rw [hread] at hl
        exact hl
    · intro hl
      refine Or.inr ⟨y, hyN, x, hxN, ?_, rfl, ?_⟩
      · rw [write_address_in_range bin hyN hxN hfitN]
      · rw [hread]
        exact hl
  · intro i hi0 hi1
    rw [hwh] at hi1
    have hout := offset_outside hi0 hi1 hsep
    rw [loops_frame, memset_outside _ _ _ _ _ hout]
    intro y hy x hx
    have h2 := write_address_bounds bin hy hx hfitN
    exact ne_of_outside hout h2.1 h2.2

/-- Instance of amended C1 on a 3 x 2 image at address 1000 with its output at 100. -/
theorem yuv422_to_binary_threshold_witness :
    ((0 : Int) < 3 ∧ (0 : Int) < 2 ∧ (3 : Int) * 2 ≤ 2 ^ 30 ∧
      ((100 : Int) + (3 + 7) / 8 * 2 ≤ 1000 ∨ (1000 : Int) + 2 * (3 * 2) ≤ 100)) ∧
    ((yuv422_to_binary sampleMem (some 1000) 3 2 (some 100) 100).1 = 0 ∧
    (∀ x y : Nat, (x : Int) < 3 → (y : Int) < 2 →
      (bitAt (yuv422_to_binary sampleMem (some 1000) 3 2 (some 100) 100).2
          (100 + ((y : Int) * ((3 + 7) / 8) + (x : Int) / 8)) (x % 8) = true ↔
        sampleMem (1000 + 2 * ((y : Int) * 3 + (x : Int))) ≥ 100)) ∧
    (∀ i : Int, 0 ≤ i → i < 2 * (3 * 2) →
      (yuv422_to_binary sampleMem (some 1000) 3 2 (some 100) 100).2 (1000 + i) =
        sampleMem (1000 + i))) :=
  ⟨by decide,
    yuv422_to_binary_threshold sampleMem 1000 100 3 2 100 (by decide) (by decide) (by decide)
      (by decide)⟩

/-- C2: `yuv422_to_binary` returns -1 exactly when `yuv422_data` is NULL, `binary_data` is
NULL, `width <= 0` or `height <= 0`, and it returns 0 for every other input. -/
theorem yuv422_to_binary_return (mem : Mem) (yuv422_data binary_data : Option Int)
    (width height : Int) (t : U8) :
    ((yuv422_to_binary mem yuv422_data width height binary_data t).1 = -1 ↔
      (yuv422_data = none ∨ binary_data = none ∨ width ≤ 0 ∨ height ≤ 0)) ∧
    ((yuv422_to_binary mem yuv422_data width height binary_data t).1 = -1 ∨
      (yuv422_to_binary mem yuv422_data width height binary_data t).1 = 0) := by
  cases yuv422_data with
  | none => simp [yuv422_to_binary]
  | some yuv =>
    cases binary_data with
    | none => simp [yuv422_to_binary]
    | some bin =>
      by_cases hguard : width ≤ 0 ∨ height ≤ 0
      · simp [yuv422_to_binary, hguard]
      · simp [yuv422_to_binary, hguard]

/-- C3: on a valid image whose luminance total cannot wrap the 32-bit accumulator
(`width * height * 255 < 2^32`), `yuv422_to_binary_adaptive` gives the same return value and
the same memory, hence the same output bytes, as `yuv422_to_binary` called with the integer
average luminance `floor (sum / (width * height))` as threshold; on invalid arguments it
returns -1. -/
theorem yuv422_to_binary_adaptive_refines (mem : Mem) (yuv bin width height : Int)
    (hw : 0 < width) (hh : 0 < height) (hfit : width * height * 255 < 2 ^ 32) :
    (∃ t : U8, t.val = average_luminance (bytesAt mem yuv) (width * height).toNat ∧
      yuv422_to_binary_adaptive mem (some yuv) width height (some bin) =
        yuv422_to_binary mem (some yuv) width height (some bin) t) ∧
    (∀ (mem2 : Mem) (yuv2 bin2 : Option Int) (width2 height2 : Int),
      (yuv2 = none ∨ bin2 = none ∨ width2 ≤ 0 ∨ height2 ≤ 0) →
        (yuv422_to_binary_adaptive mem2 yuv2 width2 height2 bin2).1 = -1) := by
  constructor
  · obtain ⟨w, rfl⟩ : ∃ w : Nat, width = (w : Int) :=
      ⟨width.toNat, (Int.toNat_of_nonneg (le_of_lt hw)).symm⟩
    obtain ⟨h, rfl⟩ : ∃ h : Nat, height = (h : Int) :=
      ⟨height.toNat, (Int.toNat_of_nonneg (le_of_lt hh)).symm⟩
    have hguard : ¬ ((w : Int) ≤ 0 ∨ (h : Int) ≤ 0) := by omega
    have hfitN : w * h * 255 < 2 ^ 32 := by exact_mod_cast hfit
    have hprod : ((w : Int) * (h : Int)) = ((w * h : Nat) : Int) := by push_cast; rfl
    have hdiv : (wrap32 ((w : Int) * (h : Int)) % 2 ^ 32).toNat = w * h := by
      rw [hprod, wrap32_of_range (by omega) (by omega)]
      omega
    refine ⟨toU8 (average_luminance (bytesAt mem yuv) (w * h)), ?_, ?_⟩
    · have hlt := average_luminance_lt (bytesAt mem yuv) (w * h)
      rw [hprod, Int.toNat_natCast]
      simp only [toU8]
      exact Nat.mod_eq_of_lt hlt
    · simp only [yuv422_to_binary_adaptive, hguard, if_false, hdiv, Int.toNat_natCast]
      rw [sum_loops_eq mem yuv w h hfitN]
      rfl
  · intro mem2 yuv2 bin2 width2 height2 hbad
    cases yuv2 with
    | none => simp [yuv422_to_binary_adaptive]
    | some y2 =>
      cases bin2 with
      | none => simp [yuv422_to_binary_adaptive]
      | some b2 =>
        have hguard : width2 ≤ 0 ∨ height2 ≤ 0 := by
          rcases hbad with h | h | h | h
          · exact absurd h (by simp)
          · exact absurd h (by simp)
          · exact Or.inl h
          · exact Or.inr h
        simp [yuv422_to_binary_adaptive, hguard]

/-- Instance of C3 on a 3 x 2 image, and on a call with a null input pointer. -/
theorem yuv422_to_binary_adaptive_refines_witness :
    ((0 : Int) < 3 ∧ (0 : Int) < 2 ∧ (3 : Int) * 2 * 255 < 2 ^ 32) ∧
    (∃ t : U8, t.val = average_luminance (bytesAt sampleMem 1000) ((3 : Int) * 2).toNat ∧
      yuv422_to_binary_adaptive sampleMem (some 1000) 3 2 (some 100) =
        yuv422_to_binary sampleMem (some 1000) 3 2 (some 100) t) ∧
    (yuv422_to_binary_adaptive sampleMem none 3 2 (some 100)).1 = -1 :=
  ⟨⟨by decide, by decide, by decide⟩,
    (yuv422_to_binary_adaptive_refines sampleMem 1000 100 3 2
      (by decide) (by decide) (by decide)).1,
    (yuv422_to_binary_adaptive_refines sampleMem 1000 100 3 2
      (by decide) (by decide) (by decide)).2 sampleMem none (some 100) 3 2 (Or.inl rfl)⟩

/-! ## Claims about `__matrix_coord_to_led_index` -/

/-- C4 (evaluation at the failing input): at `x = 0`, `y = 0`, both inside `0..15`,
`__matrix_coord_to_led_index` returns 0, which is outside the documented range `1..256`. -/
theorem matrix_coord_to_led_index_origin :
    __matrix_coord_to_led_index 0 0 = 0 ∧
      ¬ (1 ≤ __matrix_coord_to_led_index 0 0 ∧ __matrix_coord_to_led_index 0 0 ≤ 256) := by
  decide

/-- C5: `__matrix_coord_to_led_index` is the column-based zigzag layout: inside the
16 x 16 matrix it returns `16 * x + y` for even `x` and `16 * x + 15 - y` for odd `x`, and
0 when `x >= 16` or `y >= 16`; columns 0, 1, 2, 3 map to LEDs 0..15, 31..16, 32..47 and
63..48. -/
theorem matrix_coord_to_led_index_zigzag :
    (∀ x y : Nat, __matrix_coord_to_led_index x y =
      if x < 16 ∧ y < 16 then (if x % 2 = 0 then 16 * x + y else 16 * x + 15 - y) else 0) ∧
    (List.range 16).map (__matrix_coord_to_led_index 0) = List.range' 0 16 ∧
    (List.range 16).map (__matrix_coord_to_led_index 1) = (List.range' 16 16).reverse ∧
    (List.range 16).map (__matrix_coord_to_led_index 2) = List.range' 32 16 ∧
    (List.range 16).map (__matrix_coord_to_led_index 3) = (List.range' 48 16).reverse := by
  refine ⟨?_, by decide, by decide, by decide, by decide⟩
  intro x y
  unfold __matrix_coord_to_led_index
  by_cases hin : x < 16 ∧ y < 16
  · have hguard : ¬ (x ≥ 16 ∨ y ≥ 16) := by omega
    rw [if_neg hguard, if_pos hin]
    by_cases hpar : x % 2 = 0
    · simp only [hpar, if_true]
      omega
    · simp only [hpar, if_false]
      omega
  · have hguard : x ≥ 16 ∨ y ≥ 16 := by omega
    rw [if_pos hguard, if_neg hin]

/-! ## Claims about `__disp_8080_convert_fb` -/

/-- C6: for a non-null frame whose conversion buffer is available, `__disp_8080_convert_fb`
returns the conversion buffer with, for every `i < len / 2`, destination word
`i = ((s & 0x0FFE) >> 1) | ((s & 0xE000) >> 2)` for the source word `s` at index `i`:
output bits 0..10 are source bits 1..11, output bits 11..13 are source bits 13..15,
output bits 14 and 15 are zero.  The word is a function (`convert_pixel`) of the source
word at the same index alone. -/
theorem disp_8080_convert_fb_words
    (tdl_disp_create_frame_buff : Nat → Option TDL_DISP_FRAME_BUFF_T)
    (TUYA_PIXEL_FMT_RGB565 : Nat) (sg_conv_fb : Option TDL_DISP_FRAME_BUFF_T)
    (frame_buff conv : TDL_DISP_FRAME_BUFF_T)
    (havail : __disp_8080_convert_fb_acquire tdl_disp_create_frame_buff TUYA_PIXEL_FMT_RGB565
      sg_conv_fb frame_buff = some conv) :
    ∃ out, __disp_8080_convert_fb tdl_disp_create_frame_buff TUYA_PIXEL_FMT_RGB565
        sg_conv_fb (some frame_buff) = (some out, some out) ∧
      ∀ i, i < frame_buff.len / 2 →
        out.frame i = convert_pixel (frame_buff.frame i) ∧
        (out.frame i).val =
          (((frame_buff.frame i).val &&& 0x0FFE) >>> 1) |||
            (((frame_buff.frame i).val &&& 0xE000) >>> 2) ∧
        (∀ j, j ≤ 10 →
          (out.frame i).val.testBit j = (frame_buff.frame i).val.testBit (j + 1)) ∧
        (∀ j, 11 ≤ j → j ≤ 13 →
          (out.frame i).val.testBit j = (frame_buff.frame i).val.testBit (j + 2)) ∧
        (out.frame i).val.testBit 14 = false ∧
        (out.frame i).val.testBit 15 = false := by
  refine ⟨{ conv with
      frame := forLoop (frame_buff.len / 2)
        (fun k d => bufSet d k (convert_pixel (frame_buff.frame k))) conv.frame }, ?_, ?_⟩
  · simp only [__disp_8080_convert_fb, havail]
  intro i hi
  have hword : forLoop (frame_buff.len / 2)
      (fun k d => bufSet d k (convert_pixel (frame_buff.frame k))) conv.frame i =
      convert_pixel (frame_buff.frame i) := by
    rw [forLoop_map_at convert_pixel frame_buff.frame, if_pos hi]
  dsimp only
  rw [hword]
  refine ⟨rfl, convert_pixel_val _, ?_, ?_, ?_, ?_⟩
  · intro j hj
    rw [convert_pixel_testBit _ _ (by omega)]
    have h2 : ¬ (11 ≤ j ∧ j ≤ 13) := by omega
    simp [hj, h2, Nat.add_comm]
  · intro j hj1 hj2
    rw [convert_pixel_testBit _ _ (by omega)]
    have h1 : ¬ j ≤ 10 := by omega
    simp [h1, hj1, hj2, Nat.add_comm]
  · rw [convert_pixel_testBit _ _ (by omega)]
    simp
  · rw [convert_pixel_testBit _ _ (by omega)]
    simp

/-- Instance of C6 on a 2 x 2 frame with a fresh conversion buffer. -/
theorem disp_8080_convert_fb_words_witness :
    __disp_8080_convert_fb_acquire sampleCreate 1 none sampleFrame = some sampleConv ∧
    ∃ out, __disp_8080_convert_fb sampleCreate 1 none (some sampleFrame) = (some out, some out) ∧
      ∀ i, i < sampleFrame.len / 2 →
        out.frame i = convert_pixel (sampleFrame.frame i) ∧
        (out.frame i).val =
          (((sampleFrame.frame i).val &&& 0x0FFE) >>> 1) |||
            (((sampleFrame.frame i).val &&& 0xE000) >>> 2) ∧
        (∀ j, j ≤ 10 →
          (out.frame i).val.testBit j = (sampleFrame.frame i).val.testBit (j + 1)) ∧
        (∀ j, 11 ≤ j → j ≤ 13 →
          (out.frame i).val.testBit j = (sampleFrame.frame i).val.testBit (j + 2)) ∧
        (out.frame i).val.testBit 14 = false ∧
        (out.frame i).val.testBit 15 = false :=
  ⟨rfl, disp_8080_convert_fb_words sampleCreate 1 none sampleFrame sampleConv rfl⟩

/-! ## Claims about `tdd_disp_spi_st7735s_xlt_register` -/

/-- C7: `tdd_disp_spi_st7735s_xlt_register` returns `OPRT_INVALID_PARM` when `name` is NULL
or `dev_cfg` is NULL, leaving the static SPI configuration as it was and making no call to
`tdd_disp_spi_device_register`; for non-null arguments it makes exactly one such call and
returns the value that call returns. -/
theorem st7735s_xlt_register_return (OPRT_INVALID_PARM : Int)
    (tdd_disp_spi_device_register : String → TDD_DISP_SPI_CFG_T → Int)
    (sg : TDD_DISP_SPI_CFG_T) (name : String) (dev_cfg : DISP_SPI_DEVICE_CFG_T) :
    (∀ d : Option DISP_SPI_DEVICE_CFG_T,
      tdd_disp_spi_st7735s_xlt_register OPRT_INVALID_PARM tdd_disp_spi_device_register sg none d =
        { ret := OPRT_INVALID_PARM, static_cfg := sg, calls := [] }) ∧
    (∀ n : Option String,
      tdd_disp_spi_st7735s_xlt_register OPRT_INVALID_PARM tdd_disp_spi_device_register sg n none =
        { ret := OPRT_INVALID_PARM, static_cfg := sg, calls := [] }) ∧
    ∃ passed,
      (tdd_disp_spi_st7735s_xlt_register OPRT_INVALID_PARM tdd_disp_spi_device_register sg
        (some name) (some dev_cfg)).calls = [(name, passed)] ∧
      (tdd_disp_spi_st7735s_xlt_register OPRT_INVALID_PARM tdd_disp_spi_device_register sg
        (some name) (some dev_cfg)).ret = tdd_disp_spi_device_register name passed := by
  refine ⟨?_, ?_, ?_⟩
  · intro d
    cases d <;> rfl
  · intro n
    cases n <;> rfl
  · exact ⟨_, rfl, rfl⟩

/-- C8: after any history of register calls, the configuration that
`tdd_disp_spi_st7735s_xlt_register` hands to `tdd_disp_spi_device_register` for non-null
`name` and `dev_cfg` has `width`, `height`, `pixel_fmt`, `port`, `spi_clk`, `cs_pin`,
`dc_pin`, `rst_pin`, `rotation`, `power` and `bl` equal to those of `dev_cfg`, has
`cST7735S_INIT_SEQ` as `init_seq`, keeps `cmd_caset`, `cmd_raset`, `cmd_ramwr` at 0x2A, 0x2B,
0x2C and `is_swap` true, and has the XLT window function as `set_window_cb`. -/
theorem st7735s_xlt_register_config (OPRT_INVALID_PARM : Int)
    (tdd_disp_spi_device_register : String → TDD_DISP_SPI_CFG_T → Int)
    (history : List (Option String × Option DISP_SPI_DEVICE_CFG_T))
    (name : String) (dev_cfg : DISP_SPI_DEVICE_CFG_T) :
    ∃ passed,
      (tdd_disp_spi_st7735s_xlt_register OPRT_INVALID_PARM tdd_disp_spi_device_register
        (register_history OPRT_INVALID_PARM tdd_disp_spi_device_register history)
        (some name) (some dev_cfg)).calls = [(name, passed)] ∧
      passed.cfg.width = dev_cfg.width ∧ passed.cfg.height = dev_cfg.height ∧
      passed.cfg.pixel_fmt = dev_cfg.pixel_fmt ∧ passed.cfg.port = dev_cfg.port ∧
      passed.cfg.spi_clk = dev_cfg.spi_clk ∧ passed.cfg.cs_pin = dev_cfg.cs_pin ∧
      passed.cfg.dc_pin = dev_cfg.dc_pin ∧ passed.cfg.rst_pin = dev_cfg.rst_pin ∧
      passed.rotation = dev_cfg.rotation ∧ passed.power = dev_cfg.power ∧
      passed.bl = dev_cfg.bl ∧
      passed.init_seq = cST7735S_INIT_SEQ ∧
      passed.cfg.cmd_caset = 0x2A ∧ passed.cfg.cmd_raset = 0x2B ∧
      passed.cfg.cmd_ramwr = 0x2C ∧ passed.is_swap = true ∧
      passed.set_window_cb = some __tdd_disp_st7735s_set_window := by
  obtain ⟨h1, h2, h3, h4, h5⟩ :=
    static_cfg_fixed_history OPRT_INVALID_PARM tdd_disp_spi_device_register history
  exact ⟨_, rfl, rfl, rfl, rfl, rfl, rfl, rfl, rfl, rfl, rfl, rfl, rfl, h4, h1, h2, h3, h5, rfl⟩

/-! ## Claims about `__tdd_disp_st7735s_set_window` -/

/-- C9 as stated fails: for `x_start = 255` the bytes sent after the column-address command
are `[0, 0, 0, 1]`, while the big-endian encodings of `x_start + 1 = 256` and
`x_end + 1 = 1` are `[1, 0, 0, 1]`; the offset is added to the low byte only. -/
theorem set_window_column_carry_lost :
    (__tdd_disp_st7735s_set_window (some sampleBaseCfg) 255 0 0 0)[1]? =
      some (BusOp.data [0, 0, 0, 1]) ∧
    be16 (255 + 1) ++ be16 (0 + 1) = [1, 0, 0, 1] ∧
    (__tdd_disp_st7735s_set_window (some sampleBaseCfg) 255 0 0 0)[1]? ≠
      some (BusOp.data (be16 (255 + 1) ++ be16 (0 + 1))) := by
  decide

/-- C9, amended: for non-null `p_cfg` and 16-bit window bounds whose low byte is at most 254
(`x_start`, `x_end`) resp. at most 229 (`y_start`, `y_end`), the two byte pairs sent after
the column-address command are the big-endian 16-bit encodings of `x_start + 1` and
`x_end + 1`, and the two byte pairs sent after the row-address command are those of
`y_start + 26` and `y_end + 26`. -/
theorem set_window_offsets (cfg : DISP_SPI_BASE_CFG_T) (x_start y_start x_end y_end : U16)
    (hxs : x_start.val % 256 ≤ 254) (hxe : x_end.val % 256 ≤ 254)
    (hys : y_start.val % 256 ≤ 229) (hye : y_end.val % 256 ≤ 229) :
    (__tdd_disp_st7735s_set_window (some cfg) x_start y_start x_end y_end)[0]? =
      some (BusOp.cmd cfg.cmd_caset) ∧
    (__tdd_disp_st7735s_set_window (some cfg) x_start y_start x_end y_end)[1]? =
      some (BusOp.data (be16 (x_start.val + 1) ++ be16 (x_end.val + 1))) ∧
    (__tdd_disp_st7735s_set_window (some cfg) x_start y_start x_end y_end)[2]? =
      some (BusOp.cmd cfg.cmd_raset) ∧
    (__tdd_disp_st7735s_set_window (some cfg) x_start y_start x_end y_end)[3]? =
      some (BusOp.data (be16 (y_start.val + 26) ++ be16 (y_end.val + 26))) := by
  refine ⟨rfl, ?_, rfl, ?_⟩
  · simp only [__tdd_disp_st7735s_set_window, be16, List.take]
    rw [byte_hi_eq x_start.val hxs 1 (by omega), byte_hi_eq x_end.val hxe 1 (by omega),
      byte_lo_eq x_start.val 1, byte_lo_eq x_end.val 1]
    rfl
  · simp only [__tdd_disp_st7735s_set_window, be16, List.take]
    rw [byte_hi_eq y_start.val (by omega) 26 (by omega),
      byte_hi_eq y_end.val (by omega) 26 (by omega),
      byte_lo_eq y_start.val 26, byte_lo_eq y_end.val 26]
    rfl

/-- Instance of amended C9 on a window whose bounds have a non-zero high byte. -/
theorem set_window_offsets_witness :
    ((261 : U16).val % 256 ≤ 254 ∧ (300 : U16).val % 256 ≤ 254 ∧
      (0 : U16).val % 256 ≤ 229 ∧ (79 : U16).val % 256 ≤ 229) ∧
    (__tdd_disp_st7735s_set_window (some sampleBaseCfg) 261 0 300 79)[0]? =
      some (BusOp.cmd sampleBaseCfg.cmd_caset) ∧
    (__tdd_disp_st7735s_set_window (some sampleBaseCfg) 261 0 300 79)[1]? =
      some (BusOp.data (be16 ((261 : U16).val + 1) ++ be16 ((300 : U16).val + 1))) ∧
    (__tdd_disp_st7735s_set_window (some sampleBaseCfg) 261 0 300 79)[2]? =
      some (BusOp.cmd sampleBaseCfg.cmd_raset) ∧
    (__tdd_disp_st7735s_set_window (some sampleBaseCfg) 261 0 300 79)[3]? =
      some (BusOp.data (be16 ((0 : U16).val + 26) ++ be16 ((79 : U16).val + 26))) :=
  ⟨by decide,
    set_window_offsets sampleBaseCfg 261 0 300 79 (by decide) (by decide) (by decide)
      (by decide)⟩

/-- C10: for non-null `p_cfg` and a window with `x_start, x_end <= 254` and
`y_start, y_end <= 229`, `__tdd_disp_st7735s_set_window` issues exactly: command
`cmd_caset`; the 4 data bytes `hi (x_start+1), lo (x_start+1), hi (x_end+1), lo (x_end+1)`;
command `cmd_raset`; the 4 data bytes `hi (y_start+26), lo (y_start+26), hi (y_end+26),
lo (y_end+26)`; nothing else, in particular no memory-write command.  With `p_cfg` NULL the
trace is empty. -/
theorem set_window_trace (cfg : DISP_SPI_BASE_CFG_T) (x_start y_start x_end y_end : U16)
    (hxs : x_start.val ≤ 254) (hxe : x_end.val ≤ 254)
    (hys : y_start.val ≤ 229) (hye : y_end.val ≤ 229) :
    __tdd_disp_st7735s_set_window (some cfg) x_start y_start x_end y_end =
      [BusOp.cmd cfg.cmd_caset,
       BusOp.data [toU8 ((x_start.val + 1) / 256), toU8 (x_start.val + 1),
                   toU8 ((x_end.val + 1) / 256), toU8 (x_end.val + 1)],
       BusOp.cmd cfg.cmd_raset,
       BusOp.data [toU8 ((y_start.val + 26) / 256), toU8 (y_start.val + 26),
                   toU8 ((y_end.val + 26) / 256), toU8 (y_end.val + 26)]] ∧
    __tdd_disp_st7735s_set_window none x_start y_start x_end y_end = [] := by
  refine ⟨?_, rfl⟩
  simp only [__tdd_disp_st7735s_set_window, List.take]
  rw [byte_hi_eq x_start.val (by omega) 1 (by omega),
    byte_hi_eq x_end.val (by omega) 1 (by omega),
    byte_hi_eq y_start.val (by omega) 26 (by omega),
    byte_hi_eq y_end.val (by omega) 26 (by omega),
    byte_lo_eq x_start.val 1, byte_lo_eq x_end.val 1,
    byte_lo_eq y_start.val 26, byte_lo_eq y_end.val 26]

/-- Instance of C10 on the full window of a 160 x 80 panel. -/
theorem set_window_trace_witness :
    ((0 : U16).val ≤ 254 ∧ (159 : U16).val ≤ 254 ∧ (0 : U16).val ≤ 229 ∧
      (79 : U16).val ≤ 229) ∧
    __tdd_disp_st7735s_set_window (some sampleBaseCfg) 0 0 159 79 =
      [BusOp.cmd sampleBaseCfg.cmd_caset,
       BusOp.data [toU8 (((0 : U16).val + 1) / 256), toU8 ((0 : U16).val + 1),
                   toU8 (((159 : U16).val + 1) / 256), toU8 ((159 : U16).val + 1)],
       BusOp.cmd sampleBaseCfg.cmd_raset,
       BusOp.data [toU8 (((0 : U16).val + 26) / 256), toU8 ((0 : U16).val + 26),
                   toU8 (((79 : U16).val + 26) / 256), toU8 ((79 : U16).val + 26)]] ∧
    __tdd_disp_st7735s_set_window none 0 0 159 79 = [] :=
  ⟨by decide,
    set_window_trace sampleBaseCfg 0 0 159 79 (by decide) (by decide) (by decide) (by decide)⟩

/-! ## Claims about `__example_pixels_task` and `__scan_animation_effect` -/

/-- C11: in `__example_pixels_task` each effect runs for 200 consecutive iterations and 8
effects rotate: at the start of iteration `n` the locals are
`effect_mode = (n div 200) mod 8` and `effect_cycles = n mod 200`, the effect run in
iteration `n` is the one of case `(n div 200) mod 8`, `effect_cycles < 200`,
`effect_mode` is in `0..7` and never 8, and neither case 8 (`__color_wave_effect`) nor the
`default` branch is ever executed. -/
theorem example_pixels_task_rotation (n : Nat) :
    task_state_at n = { effect_mode := n / 200 % 8, effect_cycles := n % 200 } ∧
    (__example_pixels_task_iteration (task_state_at n)).1 = effect_of_mode (n / 200 % 8) ∧
    (task_state_at n).effect_cycles < 200 ∧
    (task_state_at n).effect_mode < 8 ∧
    (task_state_at n).effect_mode ≠ 8 ∧
    (__example_pixels_task_iteration (task_state_at n)).1 ≠ some Effect.__color_wave_effect ∧
    (__example_pixels_task_iteration (task_state_at n)).1 ≠ none := by
  have hm : n / 200 % 8 < 8 := Nat.mod_lt _ (by decide)
  have hc : n % 200 < 200 := Nat.mod_lt _ (by decide)
  obtain ⟨e, he, hne⟩ := effect_of_mode_isSome _ hm
  have hrun : (__example_pixels_task_iteration (task_state_at n)).1 = some e := by
    rw [task_state_at_eq]
    simp only [__example_pixels_task_iteration, he]
    split <;> rfl
  rw [hrun, task_state_at_eq]
  refine ⟨rfl, he.symm, hc, hm, Nat.ne_of_lt hm, ?_, by simp⟩
  intro h
  exact hne (Option.some.inj h)

/-- C12 (evaluation at the failing input): in the first call, which is in the column phase
with `column_index = 0`, the driver calls are the clearing call, red for LED indices 1..15
and the refresh; LED `(0, 0)`, whose index is 0, is never set to red because of the guard
`led_index > 0`.  Likewise call 160, which enters the row phase with `row_index = 0`, does
not set LED `(0, 0)` to blue. -/
theorem scan_animation_skips_origin :
    (__scan_animation_effect pixel_ok scan_state_initial).1.column_phase = true ∧
    (__scan_animation_effect pixel_ok scan_state_initial).1.column_index = 0 ∧
    (__scan_animation_effect pixel_ok scan_state_initial).2 =
      PixelCall.set_single_color 0 256
          { warm := 0, cold := 0, red := 0, green := 0, blue := 0 } ::
        ((List.range' 1 15).map (fun i => PixelCall.set_single_color i 1 scan_red) ++
          [PixelCall.dev_refresh]) ∧
    PixelCall.set_single_color (__matrix_coord_to_led_index 0 0) 1 scan_red ∉
      (__scan_animation_effect pixel_ok scan_state_initial).2 ∧
    scan_state_at pixel_ok 159 =
      { frame_count := 9, column_index := 15, row_index := 0, column_phase := true } ∧
    (__scan_animation_effect pixel_ok
      { frame_count := 9, column_index := 15, row_index := 0, column_phase := true }).1 =
      { frame_count := 0, column_index := 0, row_index := 0, column_phase := false } ∧
    PixelCall.set_single_color (__matrix_coord_to_led_index 0 0) 1 scan_blue ∉
      (__scan_animation_effect pixel_ok
        { frame_count := 9, column_index := 15, row_index := 0, column_phase := true }).2 := by
  refine ⟨by decide, by decide, by decide, by decide, ?_, by decide, by decide⟩
  rw [scan_state_at_closed pixel_ok (fun _ => rfl)]
  decide

/-- C13: with successful pixel calls the scan animation advances once every 10 calls, 16
column steps then 16 row steps: after `n` calls `frame_count = n mod 10` and, with
`s = (n div 10) mod 32`, the state is column phase with `column_index = s`, `row_index = 0`
when `s < 16`, and row phase with `row_index = s - 16`, `column_index = 0` otherwise; so
`frame_count < 10`, `column_index < 16`, `row_index < 16`, and the state has period 320. -/
theorem scan_animation_schedule (ok : PixelCall → Bool) (hok : ∀ c, ok c = true) (n : Nat) :
    (scan_state_at ok n).frame_count = n % 10 ∧
    (if n / 10 % 32 < 16 then
      (scan_state_at ok n).column_phase = true ∧
        (scan_state_at ok n).column_index = n / 10 % 32 ∧ (scan_state_at ok n).row_index = 0
    else
      (scan_state_at ok n).column_phase = false ∧
        (scan_state_at ok n).row_index = n / 10 % 32 - 16 ∧
        (scan_state_at ok n).column_index = 0) ∧
    (scan_state_at ok n).frame_count < 10 ∧
    (scan_state_at ok n).column_index < 16 ∧
    (scan_state_at ok n).row_index < 16 ∧
    scan_state_at ok (n + 320) = scan_state_at ok n := by
  rw [scan_state_at_closed ok hok, scan_state_at_closed ok hok]
  have hq : (n + 320) / 10 % 32 = n / 10 % 32 := by omega
  have hr : (n + 320) % 10 = n % 10 := by omega
  by_cases hph : n / 10 % 32 < 16
  · simp only [scan_state_closed, hph, if_true, decide_True, hq, hr]
    refine ⟨trivial, ⟨trivial, trivial, trivial⟩, ?_, ?_, ?_, trivial⟩ <;>
      first | trivial | omega
  · simp only [scan_state_closed, hph, if_false, decide_False, hq, hr]
    refine ⟨trivial, ⟨trivial, trivial, trivial⟩, ?_, ?_, ?_, trivial⟩ <;>
      first | trivial | omega

/-- Instance of C13 after 165 calls, in the row phase. -/
theorem scan_animation_schedule_witness :
    (∀ c, pixel_ok c = true) ∧
    ((scan_state_at pixel_ok 165).frame_count = 165 % 10 ∧
    (if 165 / 10 % 32 < 16 then
      (scan_state_at pixel_ok 165).column_phase = true ∧
        (scan_state_at pixel_ok 165).column_index = 165 / 10 % 32 ∧
        (scan_state_at pixel_ok 165).row_index = 0
    else
      (scan_state_at pixel_ok 165).column_phase = false ∧
        (scan_state_at pixel_ok 165).row_index = 165 / 10 % 32 - 16 ∧
        (scan_state_at pixel_ok 165).column_index = 0) ∧
    (scan_state_at pixel_ok 165).frame_count < 10 ∧
    (scan_state_at pixel_ok 165).column_index < 16 ∧
    (scan_state_at pixel_ok 165).row_index < 16 ∧
    scan_state_at pixel_ok (165 + 320) = scan_state_at pixel_ok 165) :=
  ⟨fun _ => rfl, scan_animation_schedule pixel_ok (fun _ => rfl) 165⟩

/-! ## Claims about the initialisation tables -/

/-- C14 (evaluation at the failing input): the last record of `cST7789_INIT_SEQ`, the one of
`ST7789_DISPON`, is `1, 10, ST7789_DISPON` followed by the terminator, so its delay field
is 10 and not the 500 ms announced by the comment on that line. -/
theorem st7789_dispon_delay (c : ST7789_CMDS) :
    (cST7789_INIT_SEQ c).drop 103 = [1, 10, c.ST7789_DISPON, 0] ∧
    ((cST7789_INIT_SEQ c).drop 103)[1]? = some 10 ∧
    ((cST7789_INIT_SEQ c).drop 103)[1]? ≠ some 500 := by
  refine ⟨rfl, rfl, ?_⟩
  show some 10 ≠ some 500
  decide

/-- C15: `cST7789_INIT_SEQ` is a well-formed command table: with enough fuel the reader
decodes it into exactly 20 records whose commands are SWRESET, SLPOUT, COLMOD, VCMOFSET,
PORCTRL, INVOFF, GCTRL, VCOMS, LCMCTRL, VDVVRHEN, VRHS, VDVSET, FRCTR2, PWCTRL1, PWCTRL2,
MADCTL, PVGAMCTRL, NVGAMCTRL, SPI2EN, DISPON in that order; every record has `n >= 1` and
`n - 1` parameters, every parameter value is below 256, nothing follows the terminator and
the terminating 0 is the last element of the array. -/
theorem st7789_init_seq_well_formed (c : ST7789_CMDS) (k : Nat) :
    ∃ records,
      decode_init_seq (k + 21) (cST7789_INIT_SEQ c) = some (records, []) ∧
      records.length = 20 ∧
      records.map InitRecord.command =
        [c.ST7789_SWRESET, c.ST7789_SLPOUT, c.ST7789_COLMOD, c.ST7789_VCMOFSET,
         c.ST7789_PORCTRL, c.ST7789_INVOFF, c.ST7789_GCTRL, c.ST7789_VCOMS,
         c.ST7789_LCMCTRL, c.ST7789_VDVVRHEN, c.ST7789_VRHS, c.ST7789_VDVSET,
         c.ST7789_FRCTR2, c.ST7789_PWCTRL1, c.ST7789_PWCTRL2, c.ST7789_MADCTL,
         c.ST7789_PVGAMCTRL, c.ST7789_NVGAMCTRL, c.ST7789_SPI2EN, c.ST7789_DISPON] ∧
      (∀ r ∈ records, 1 ≤ r.n ∧ r.params.length = r.n - 1 ∧ ∀ p ∈ r.params, p < 256) ∧
      (cST7789_INIT_SEQ c).getLast? = some 0 := by
  refine ⟨_, rfl, rfl, rfl, ?_, rfl⟩
  intro r hr
  simp only [List.mem_cons, List.mem_singleton, List.not_mem_nil, or_false] at hr
  rcases hr with h | h | h | h | h | h | h | h | h | h | h | h | h | h | h | h | h | h | h | h <;>
    subst h <;> refine ⟨Nat.succ_le_succ (Nat.zero_le _), rfl, ?_⟩ <;> intro p hp <;>
    simp only [List.take, List.mem_cons, List.mem_singleton, List.not_mem_nil, or_false] at hp <;>
    omega

/-- C16: `cST7735S_INIT_SEQ` is a well-formed command table: with enough fuel the reader
decodes it into exactly 18 records whose commands are 0x11, 0x21, 0x21, 0xB1, 0xB2, 0xB3,
0xB4, 0xC0, 0xC1, 0xC2, 0xC3, 0xC4, 0xC5, 0xE0, 0xE1, 0x3A, 0x36, 0x29 in that order; the
pixel-format command 0x3A carries the single parameter 0x05; nothing follows the
terminator and the terminating 0 is the last element of the array. -/
theorem st7735s_init_seq_well_formed (k : Nat) :
    ∃ records,
      decode_init_seq (k + 19) (cST7735S_INIT_SEQ.map Fin.val) = some (records, []) ∧
      records.length = 18 ∧
      records.map InitRecord.command =
        [0x11, 0x21, 0x21, 0xB1, 0xB2, 0xB3, 0xB4, 0xC0, 0xC1, 0xC2, 0xC3, 0xC4, 0xC5,
         0xE0, 0xE1, 0x3A, 0x36, 0x29] ∧
      (records.filter (fun r => r.command = 0x3A)).map InitRecord.params = [[0x05]] ∧
      cST7735S_INIT_SEQ.getLast? = some 0 := by
  refine ⟨_, rfl, rfl, rfl, ?_, rfl⟩
  decide

/-! ## Claim about the frame of `yuv422_to_binary` -/

end TuyaXiaomou
